import Mathlib

/-!
VirtualMatrixPanel: virtual-to-physical coordinate mapping.

A shallow embedding of `src/ESP32-VirtualMatrixPanel-I2S-DMA.h`.

* C++ `int` values are modelled as `Int`; every store into an `int16_t`
  field or reference goes through `wrap16` (two's complement truncation).
* C++ `/` and `%` are `Int.tdiv` and `Int.tmod` (truncation towards zero),
  `>>` is `Int.shiftRight` (arithmetic shift), `&` is `Int.land`.
* The output engine `MatrixPanel_I2S_DMA` is an external collaborator; it is
  modelled by the sequence of calls the facade performs on it.
-/

namespace VMP

/-- Truncation of a C++ `int` to `int16_t` (two's complement). -/
def wrap16 (v : Int) : Int := (v + 32768) % 65536 - 32768

/-- The struct `VirtualCoords`. Its members `virt_row` and `virt_col` are never
initialised, written or read by the code and are left out. -/
structure VirtualCoords where
  x : Int
  y : Int
  deriving DecidableEq, Repr

/-- The enum `PANEL_SCAN_RATE`. -/
inductive PANEL_SCAN_RATE where
  | NORMAL_TWO_SCAN
  | NORMAL_ONE_SIXTEEN
  | FOUR_SCAN_32PX_HIGH
  | FOUR_SCAN_16PX_HIGH
  deriving DecidableEq, Repr

/-- The enum `PANEL_CHAIN_TYPE`. -/
inductive PANEL_CHAIN_TYPE where
  | CHAIN_TOP_LEFT_DOWN
  | CHAIN_TOP_RIGHT_DOWN
  | CHAIN_BOTTOM_LEFT_UP
  | CHAIN_BOTTOM_RIGHT_UP
  deriving DecidableEq, Repr

/-- One call performed on the output engine (`display->...`). -/
inductive EngineCall where
  | drawPixel (x y : Int) (color : Nat)
  | drawPixelRGB888 (x y : Int) (r g b : Nat)
  | fillScreen (color : Nat)
  | fillScreenRGB888 (r g b : Nat)
  | clearScreen
  | flipDMABuffer
  deriving DecidableEq, Repr

/-- The private state of class `VirtualMatrixPanel`; `display` is the
sequence of calls forwarded so far to the output engine, oldest first. -/
structure VirtualMatrixPanel where
  display : List EngineCall
  panel_chain_type : PANEL_CHAIN_TYPE
  panel_scan_rate : PANEL_SCAN_RATE
  coords : VirtualCoords
  virtualResX : Int
  virtualResY : Int
  vmodule_rows : Int
  vmodule_cols : Int
  panelResX : Int
  panelResY : Int
  dmaResX : Int
  _rotate : Bool
  deriving DecidableEq, Repr

open PANEL_SCAN_RATE PANEL_CHAIN_TYPE

/-- The constructor `VirtualMatrixPanel(disp, _vmodule_rows, _vmodule_cols,
_panelResX, _panelResY, _panel_chain_type)`; the arguments are C++ `int`s and
each member is an `int16_t`. -/
def VirtualMatrixPanel.new (disp : List EngineCall)
    (_vmodule_rows _vmodule_cols _panelResX _panelResY : Int)
    (_panel_chain_type : PANEL_CHAIN_TYPE) : VirtualMatrixPanel :=
  let panelResX := wrap16 _panelResX
  let panelResY := wrap16 _panelResY
  let vmodule_rows := wrap16 _vmodule_rows
  let vmodule_cols := wrap16 _vmodule_cols
  { display := disp
    panel_chain_type := _panel_chain_type
    panel_scan_rate := NORMAL_TWO_SCAN
    panelResX := panelResX
    panelResY := panelResY
    vmodule_rows := vmodule_rows
    vmodule_cols := vmodule_cols
    virtualResX := wrap16 (vmodule_cols * _panelResX)
    virtualResY := wrap16 (vmodule_rows * _panelResY)
    dmaResX := wrap16 (panelResX * vmodule_rows * vmodule_cols - 1)
    coords := ⟨-1, -1⟩
    _rotate := false }

/-- The method `setRotate` (the call into the graphics base class is outside
the mapping state). -/
def setRotate (p : VirtualMatrixPanel) (rotate : Bool) : VirtualMatrixPanel :=
  { p with _rotate := rotate }

/-- The method `setPhysicalPanelScanRate`. -/
def setPhysicalPanelScanRate (p : VirtualMatrixPanel) (rate : PANEL_SCAN_RATE) :
    VirtualMatrixPanel :=
  { p with panel_scan_rate := rate }

/-- The `switch (panel_chain_type)` of `getCoords`: the values stored into
`coords.x` and `coords.y` for the (possibly rotated) `virt_x`, `virt_y`. -/
def chainCoords (p : VirtualMatrixPanel) (virt_x virt_y : Int) : VirtualCoords :=
  let row := Int.tdiv virt_y p.panelResY
  match p.panel_chain_type with
  | CHAIN_TOP_RIGHT_DOWN =>
    if Int.tmod row 2 = 1 then
      { x := wrap16 (p.dmaResX - virt_x - row * p.virtualResX)
        y := wrap16 (p.panelResY - 1 - Int.tmod virt_y p.panelResY) }
    else
      { x := wrap16 ((p.vmodule_rows - (row + 1)) * p.virtualResX + virt_x)
        y := wrap16 (Int.tmod virt_y p.panelResY) }
  | CHAIN_TOP_LEFT_DOWN =>
    if Int.tmod row 2 = 0 then
      { x := wrap16 (p.dmaResX - virt_x - row * p.virtualResX)
        y := wrap16 (p.panelResY - 1 - Int.tmod virt_y p.panelResY) }
    else
      { x := wrap16 ((p.vmodule_rows - (row + 1)) * p.virtualResX + virt_x)
        y := wrap16 (Int.tmod virt_y p.panelResY) }
  | CHAIN_BOTTOM_LEFT_UP =>
    let row := p.vmodule_rows - row - 1
    if Int.tmod row 2 = 1 then
      { x := wrap16 ((p.vmodule_rows - (row + 1)) * p.virtualResX + virt_x)
        y := wrap16 (Int.tmod virt_y p.panelResY) }
    else
      { x := wrap16 (p.dmaResX - row * p.virtualResX - virt_x)
        y := wrap16 (p.panelResY - 1 - Int.tmod virt_y p.panelResY) }
  | CHAIN_BOTTOM_RIGHT_UP =>
    let row := p.vmodule_rows - row - 1
    if Int.tmod row 2 = 0 then
      { x := wrap16 ((p.vmodule_rows - (row + 1)) * p.virtualResX + virt_x)
        y := wrap16 (Int.tmod virt_y p.panelResY) }
    else
      { x := wrap16 (p.dmaResX - row * p.virtualResX - virt_x)
        y := wrap16 (p.panelResY - 1 - Int.tmod virt_y p.panelResY) }

/-- The scan-rate remapping at the end of `getCoords`, applied to the
`coords` left by the switch; `virt_y` is the (possibly rotated) row. -/
def scanCoords (p : VirtualMatrixPanel) (c : VirtualCoords) (virt_y : Int) : VirtualCoords :=
  match p.panel_scan_rate with
  | FOUR_SCAN_32PX_HIGH =>
    let x :=
      if Int.land virt_y 8 = 0 then
        wrap16 (c.x + (Int.tdiv c.x p.panelResX + 1) * p.panelResX)
      else
        wrap16 (c.x + Int.tdiv c.x p.panelResX * p.panelResX)
    { x := x, y := wrap16 (Int.shiftRight virt_y 4 * 8 + Int.land virt_y 7) }
  | FOUR_SCAN_16PX_HIGH =>
    let x :=
      if Int.land virt_y 8 = 0 then
        wrap16 (c.x + Int.shiftRight p.panelResX 2 * (Int.shiftRight (Int.land c.x 0xFFF0) 4 + 1))
      else
        wrap16 (c.x + Int.shiftRight p.panelResX 2 * Int.shiftRight (Int.land c.x 0xFFF0) 4)
    if virt_y < 32 then
      { x := x, y := wrap16 (Int.shiftRight virt_y 4 * 8 + Int.land virt_y 7) }
    else
      { x := wrap16 (x + 256)
        y := wrap16 (Int.shiftRight (virt_y - 32) 4 * 8 + Int.land virt_y 7) }
  | _ => c

/-- The method `getCoords`: the panel with its scratch member `coords`
updated; the returned value is that member. -/
def getCoords (p : VirtualMatrixPanel) (virt_x virt_y : Int) : VirtualMatrixPanel :=
  let p := { p with coords := ⟨-1, -1⟩ }
  if virt_x < 0 ∨ virt_x ≥ p.virtualResX ∨ virt_y < 0 ∨ virt_y ≥ p.virtualResY then
    p
  else
    let temp_x := virt_x
    let virt_x := if p._rotate then virt_y else virt_x
    let virt_y := if p._rotate then wrap16 (p.virtualResY - 1 - temp_x) else virt_y
    { p with coords := scanCoords p (chainCoords p virt_x virt_y) virt_y }

/-- The method `drawPixel(x, y, color)`. -/
def drawPixel (p : VirtualMatrixPanel) (x y : Int) (color : Nat) : VirtualMatrixPanel :=
  let p := getCoords p x y
  { p with display := p.display ++ [EngineCall.drawPixel p.coords.x p.coords.y color] }

/-- The method `fillScreen(color)`. -/
def fillScreen (p : VirtualMatrixPanel) (color : Nat) : VirtualMatrixPanel :=
  { p with display := p.display ++ [EngineCall.fillScreen color] }

/-- The method `fillScreenRGB888(r, g, b)`. -/
def fillScreenRGB888 (p : VirtualMatrixPanel) (r g b : Nat) : VirtualMatrixPanel :=
  { p with display := p.display ++ [EngineCall.fillScreenRGB888 r g b] }

/-- The method `drawPixelRGB888(x, y, r, g, b)`. -/
def drawPixelRGB888 (p : VirtualMatrixPanel) (x y : Int) (r g b : Nat) : VirtualMatrixPanel :=
  let p := getCoords p x y
  { p with display := p.display ++ [EngineCall.drawPixelRGB888 p.coords.x p.coords.y r g b] }

/-- A panel as a sketch configures it: constructed, then `setRotate` and
`setPhysicalPanelScanRate` applied. -/
def configured (rows cols resX resY : Int) (t : PANEL_CHAIN_TYPE) (rotate : Bool)
    (rate : PANEL_SCAN_RATE) : VirtualMatrixPanel :=
  setPhysicalPanelScanRate (setRotate (VirtualMatrixPanel.new [] rows cols resX resY t) rotate) rate

/-- The virtual coordinate lies on the canvas `[0, virtualResX) × [0, virtualResY)`. -/
def inRange (p : VirtualMatrixPanel) (x y : Int) : Prop :=
  0 ≤ x ∧ x < p.virtualResX ∧ 0 ≤ y ∧ y < p.virtualResY

instance (p : VirtualMatrixPanel) (x y : Int) : Decidable (inRange p x y) := by
  unfold inRange; infer_instance

/-! ## Definitions used by the statements and proofs -/

/-- Facts about a panel whose geometry is positive and whose chain width
fits the `int16_t` members. -/
structure Geometry (p : VirtualMatrixPanel) : Prop where
  resX_pos : 0 < p.panelResX
  resY_pos : 0 < p.panelResY
  resY_le : p.panelResY ≤ 32767
  rows_pos : 0 < p.vmodule_rows
  cols_pos : 0 < p.vmodule_cols
  virtX : p.virtualResX = p.vmodule_cols * p.panelResX
  virtY : p.virtualResY = wrap16 (p.vmodule_rows * p.panelResY)
  dma : p.dmaResX = p.vmodule_rows * p.virtualResX - 1
  chain_le : p.vmodule_rows * p.virtualResX ≤ 32767

/-- Proof helper: the panel row counted from the end of the canvas the chain
starts at (the top for the `TOP` chains, the bottom for the `BOTTOM` ones). -/
def effRow (p : VirtualMatrixPanel) (row : Int) : Int :=
  match p.panel_chain_type with
  | CHAIN_TOP_RIGHT_DOWN => row
  | CHAIN_TOP_LEFT_DOWN => row
  | CHAIN_BOTTOM_LEFT_UP => p.vmodule_rows - row - 1
  | CHAIN_BOTTOM_RIGHT_UP => p.vmodule_rows - row - 1

/-- Proof helper: whether the panel row with effective index `e` takes the
upside-down branch of the switch. -/
def isFlipped (p : VirtualMatrixPanel) (e : Int) : Bool :=
  match p.panel_chain_type with
  | CHAIN_TOP_RIGHT_DOWN => decide (e % 2 = 1)
  | CHAIN_TOP_LEFT_DOWN => decide (e % 2 = 0)
  | CHAIN_BOTTOM_LEFT_UP => decide (e % 2 = 0)
  | CHAIN_BOTTOM_RIGHT_UP => decide (e % 2 = 1)

/-- Proof helper: the result of the switch written as block base plus offset. -/
def blockCoords (p : VirtualMatrixPanel) (x y : Int) : VirtualCoords :=
  let e := effRow p (y / p.panelResY)
  { x := (p.vmodule_rows - e - 1) * p.virtualResX
      + (if isFlipped p e then p.virtualResX - 1 - x else x)
    y := if isFlipped p e then p.panelResY - 1 - y % p.panelResY else y % p.panelResY }

/-- Reference row formula `NORMAL(r)` of the topology resolver, over the
unbounded integers. -/
def refNormal (p : VirtualMatrixPanel) (x y r : Int) : VirtualCoords :=
  { x := (p.vmodule_rows - r - 1) * p.virtualResX + x
    y := y % p.panelResY }

/-- Reference row formula `FLIPPED(r)` of the topology resolver, over the
unbounded integers; `dmaWidth` is the member `dmaResX`. -/
def refFlipped (p : VirtualMatrixPanel) (x y r : Int) : VirtualCoords :=
  { x := p.dmaResX - x - r * p.virtualResX
    y := p.panelResY - 1 - y % p.panelResY }

/-- Reference definition of the topology resolver: which of `NORMAL` and
`FLIPPED` each chain type selects, by the parity of the row `y / panelHeight`
(top chains) or of the row counted from the bottom (bottom chains). -/
def refResolve (p : VirtualMatrixPanel) (x y : Int) : VirtualCoords :=
  let row := y / p.panelResY
  let rowUp := p.vmodule_rows - row - 1
  match p.panel_chain_type with
  | CHAIN_TOP_RIGHT_DOWN => if row % 2 = 1 then refFlipped p x y row else refNormal p x y row
  | CHAIN_TOP_LEFT_DOWN => if row % 2 = 0 then refFlipped p x y row else refNormal p x y row
  | CHAIN_BOTTOM_LEFT_UP =>
    if rowUp % 2 = 1 then refNormal p x y rowUp else refFlipped p x y rowUp
  | CHAIN_BOTTOM_RIGHT_UP =>
    if rowUp % 2 = 0 then refNormal p x y rowUp else refFlipped p x y rowUp

/-- A chain of 512 rows of one 32x64 panel: the chain width 16384 fits
`int16_t`, the canvas height 32768 does not. -/
def tallChain : VirtualMatrixPanel :=
  configured 512 1 32 64 CHAIN_TOP_RIGHT_DOWN false NORMAL_TWO_SCAN

/-- Every in-range input is mapped into the physical chain
`[0, panelWidth*chainRows*chainCols) × [0, panelHeight)`. -/
def MapsIntoChain (p : VirtualMatrixPanel) : Prop :=
  ∀ x y : Int, inRange p x y →
    0 ≤ (getCoords p x y).coords.x
      ∧ (getCoords p x y).coords.x < p.panelResX * p.vmodule_rows * p.vmodule_cols
      ∧ 0 ≤ (getCoords p x y).coords.y ∧ (getCoords p x y).coords.y < p.panelResY

/-- No two in-range inputs are mapped to the same physical coordinate. -/
def InjectiveOnCanvas (p : VirtualMatrixPanel) : Prop :=
  ∀ x1 y1 x2 y2 : Int, inRange p x1 y1 → inRange p x2 y2 →
    (getCoords p x1 y1).coords = (getCoords p x2 y2).coords → x1 = x2 ∧ y1 = y2

/-- Every pixel of the physical chain is the image of an in-range input. -/
def CoversChain (p : VirtualMatrixPanel) : Prop :=
  ∀ px py : Int, 0 ≤ px → px < p.panelResX * p.vmodule_rows * p.vmodule_cols →
    0 ≤ py → py < p.panelResY →
    ∃ x y : Int, inRange p x y ∧ (getCoords p x y).coords = ⟨px, py⟩

/-- A 2x2 grid of 64x32 panels, chained from the top right, two-scan, not
rotated. -/
def grid2x2 : VirtualMatrixPanel :=
  configured 2 2 64 32 CHAIN_TOP_RIGHT_DOWN false NORMAL_TWO_SCAN

/-- A chain of 65 rows of eight 64x32 panels: its width 33280 exceeds `int16_t`. -/
def wideChain : VirtualMatrixPanel :=
  configured 65 8 64 32 CHAIN_TOP_RIGHT_DOWN false NORMAL_TWO_SCAN

/-- One 64x32 panel driven as `FOUR_SCAN_32PX_HIGH`, not rotated. -/
def fourScanPanel : VirtualMatrixPanel :=
  configured 1 1 64 32 CHAIN_TOP_RIGHT_DOWN false FOUR_SCAN_32PX_HIGH

/-- The `FOUR_SCAN_32PX_HIGH` column fold as the specification words it, with
the C++ integer division: `px + ((px / panelWidth) + 1) * panelWidth` when
`(y & 8) = 0`, `px + (px / panelWidth) * panelWidth` otherwise. -/
def fold32X (panelWidth px y : Int) : Int :=
  if Int.land y 8 = 0 then px + (Int.tdiv px panelWidth + 1) * panelWidth
  else px + Int.tdiv px panelWidth * panelWidth

/-- The row fold `(y >> 4) * 8 + (y & 7)` of both four-scan schemes. -/
def foldY (y : Int) : Int := Int.shiftRight y 4 * 8 + Int.land y 7

/-- The `FOUR_SCAN_16PX_HIGH` column offset as the specification words it:
`(panelWidth >> 2) * (((px & 0xFFF0) >> 4) + 1)` when `(y & 8) = 0`, without
the `+ 1` otherwise. -/
def fold16Offset (panelWidth px y : Int) : Int :=
  if Int.land y 8 = 0 then
    Int.shiftRight panelWidth 2 * (Int.shiftRight (Int.land px 0xFFF0) 4 + 1)
  else Int.shiftRight panelWidth 2 * Int.shiftRight (Int.land px 0xFFF0) 4

/-- The `FOUR_SCAN_16PX_HIGH` fold as the specification words it: below row 32
the offset is added and the row folded; from row 32 on the row fold is applied
to `y - 32` and a further 256 is added to the column. -/
def fold16 (panelWidth px y : Int) : VirtualCoords :=
  if y < 32 then { x := px + fold16Offset panelWidth px y, y := foldY y }
  else { x := px + fold16Offset panelWidth px y + 256, y := foldY (y - 32) }

/-- A single row of 257 panels 64x32: the chain width 16448 fits `int16_t`,
twice the chain width does not. -/
def longChain (rate : PANEL_SCAN_RATE) : VirtualMatrixPanel :=
  configured 1 257 64 32 CHAIN_TOP_RIGHT_DOWN false rate

/-- A single row of 257 panels 64x16. -/
def longChain16 (rate : PANEL_SCAN_RATE) : VirtualMatrixPanel :=
  configured 1 257 64 16 CHAIN_TOP_RIGHT_DOWN false rate

/-- One 64x32 panel, two-scan, with the given rotation flag. -/
def singlePanel (rotate : Bool) : VirtualMatrixPanel :=
  configured 1 1 64 32 CHAIN_TOP_RIGHT_DOWN rotate NORMAL_TWO_SCAN

/-- Two rows of one 64x32 panel driven as `FOUR_SCAN_32PX_HIGH`, not rotated. -/
def twoRowFourScan : VirtualMatrixPanel :=
  configured 2 1 64 32 CHAIN_TOP_RIGHT_DOWN false FOUR_SCAN_32PX_HIGH

/-- The physical panel block a pixel lands in: `coords.x / panelWidth`. -/
def blockOf (p : VirtualMatrixPanel) (x y : Int) : Int :=
  (getCoords p x y).coords.x / p.panelResX

/-- The block `blk(r, c)` of the virtual panel in grid row `r` and grid column
`c`, read off at the panel's top-left pixel. -/
def panelBlock (p : VirtualMatrixPanel) (r c : Int) : Int :=
  blockOf p (c * p.panelResX) (r * p.panelResY)

/-- The pair `(r, c)` is a panel of the `chainRows × chainCols` grid. -/
def inGrid (p : VirtualMatrixPanel) (r c : Int) : Prop :=
  0 ≤ r ∧ r < p.vmodule_rows ∧ 0 ≤ c ∧ c < p.vmodule_cols

instance (p : VirtualMatrixPanel) (r c : Int) : Decidable (inGrid p r c) := by
  unfold inGrid; infer_instance

/-- Serpentine chain order: (1) every in-range pixel lies in the block of its
virtual panel, (2) `panelBlock` is a bijection from the panel grid onto
`[0, chainRows*chainCols)`, (3) panels whose blocks are consecutive in the chain
are neighbours in the grid. -/
def SerpentineOrder (p : VirtualMatrixPanel) : Prop :=
  (∀ x y : Int, inRange p x y →
      inGrid p (y / p.panelResY) (x / p.panelResX)
        ∧ blockOf p x y = panelBlock p (y / p.panelResY) (x / p.panelResX))
    ∧ ((∀ r c : Int, inGrid p r c →
          0 ≤ panelBlock p r c ∧ panelBlock p r c < p.vmodule_rows * p.vmodule_cols)
      ∧ (∀ r1 c1 r2 c2 : Int, inGrid p r1 c1 → inGrid p r2 c2 →
          panelBlock p r1 c1 = panelBlock p r2 c2 → r1 = r2 ∧ c1 = c2)
      ∧ (∀ b : Int, 0 ≤ b → b < p.vmodule_rows * p.vmodule_cols →
          ∃ r c : Int, inGrid p r c ∧ panelBlock p r c = b))
    ∧ (∀ r1 c1 r2 c2 : Int, inGrid p r1 c1 → inGrid p r2 c2 →
        Int.natAbs (panelBlock p r1 c1 - panelBlock p r2 c2) = 1 →
        Int.natAbs (r1 - r2) + Int.natAbs (c1 - c2) = 1)

/-- Proof helper: the closed form of `panelBlock`. -/
def gridBlock (p : VirtualMatrixPanel) (r c : Int) : Int :=
  (p.vmodule_rows - effRow p r - 1) * p.vmodule_cols
    + (if isFlipped p (effRow p r) then p.vmodule_cols - 1 - c else c)

/-- Proof helper: the same panel wired with another chain topology. -/
def withChain (p : VirtualMatrixPanel) (t : PANEL_CHAIN_TYPE) : VirtualMatrixPanel :=
  { p with panel_chain_type := t }

/-- The canvas point `(x, y)` turned by 180 degrees inside its panel row:
`(virtualResX - 1 - x, r * panelHeight + (panelHeight - 1 - (y mod panelHeight)))`
with `r = y / panelHeight`. -/
def turnInRow (p : VirtualMatrixPanel) (x y : Int) : Int × Int :=
  (p.virtualResX - 1 - x,
    (y / p.panelResY) * p.panelResY + (p.panelResY - 1 - y % p.panelResY))

/-- A single column of 656 rows of 8x100 panels: the chain width 5248 fits
`int16_t`, the canvas height 65600 is stored as 64. -/
def wrappedCanvas (t : PANEL_CHAIN_TYPE) : VirtualMatrixPanel :=
  configured 656 1 8 100 t false NORMAL_TWO_SCAN

/-- One 32x16 panel driven as `FOUR_SCAN_16PX_HIGH`, not rotated. -/
def narrowFourScan16 : VirtualMatrixPanel :=
  configured 1 1 32 16 CHAIN_TOP_RIGHT_DOWN false FOUR_SCAN_16PX_HIGH

/-- The column the `FOUR_SCAN_16PX_HIGH` fold computes for `(x, y)` before it
is stored into the `int16_t` member: `px` plus the offset, `px` being the
two-scan column of the same input. -/
def foldedColumn16 (p : VirtualMatrixPanel) (x y : Int) : Int :=
  (fold16 p.panelResX
    (getCoords (setPhysicalPanelScanRate p NORMAL_TWO_SCAN) x y).coords.x y).x

/-- No two in-range inputs whose folded columns are below 65536 are mapped to
the same buffer cell. -/
def InjectiveBelowWrap (p : VirtualMatrixPanel) : Prop :=
  ∀ x1 y1 x2 y2 : Int, inRange p x1 y1 → inRange p x2 y2 →
    foldedColumn16 p x1 y1 < 65536 → foldedColumn16 p x2 y2 < 65536 →
    (getCoords p x1 y1).coords = (getCoords p x2 y2).coords → x1 = x2 ∧ y1 = y2

/-! ## Arithmetic helpers -/

theorem wrap16_eq_self (v : Int) (h0 : -32768 ≤ v) (h1 : v ≤ 32767) : wrap16 v = v := by
  unfold wrap16; omega

theorem wrap16_bounds (v : Int) : -32768 ≤ wrap16 v ∧ wrap16 v ≤ 32767 := by
  unfold wrap16; omega

theorem wrap16_add_mul (a k : Int) : wrap16 (a + 65536 * k) = wrap16 a := by
  unfold wrap16; omega

theorem wrap16_mul_wrap16 (a b : Int) : wrap16 (a * b) = wrap16 (a * wrap16 b) := by
  have hb : b = wrap16 b + 65536 * ((b + 32768) / 65536) := by unfold wrap16; omega
  have h : a * b = a * wrap16 b + 65536 * (a * ((b + 32768) / 65536)) := by
    conv_lhs => rw [hb]
    ring
  rw [h, wrap16_add_mul]

theorem wrap16_lt_of_nonneg (y a : Int) (ha : 0 ≤ a) (hy : y < wrap16 a) : y < a := by
  unfold wrap16 at hy; omega

theorem normal_bounds (r V row x : Int) (hrow0 : 0 ≤ row) (hrow : row < r)
    (hx0 : 0 ≤ x) (hx : x < V) :
    0 ≤ (r - (row + 1)) * V + x ∧ (r - (row + 1)) * V + x < r * V := by
  have h1 : 0 ≤ (r - (row + 1)) * V := mul_nonneg (by omega) (by omega)
  have h2 : 0 ≤ row * V := mul_nonneg hrow0 (by omega)
  constructor
  · linarith
  · nlinarith

theorem flipped_bounds (r V row x : Int) (hrow0 : 0 ≤ row) (hrow : row < r)
    (hx0 : 0 ≤ x) (hx : x < V) :
    0 ≤ r * V - 1 - x - row * V ∧ r * V - 1 - x - row * V < r * V := by
  have h1 : 0 ≤ (r - (row + 1)) * V := mul_nonneg (by omega) (by omega)
  have h2 : 0 ≤ row * V := mul_nonneg hrow0 (by omega)
  constructor
  · nlinarith
  · linarith

theorem block_unique (V a b o1 o2 : Int) (h1 : 0 ≤ o1) (h1' : o1 < V) (h2 : 0 ≤ o2)
    (h2' : o2 < V) (h : a * V + o1 = b * V + o2) : a = b ∧ o1 = o2 := by
  have hV : V ≠ 0 := by omega
  have e1 : (a * V + o1) / V = a := by
    rw [add_comm, Int.add_mul_ediv_right _ _ hV, Int.ediv_eq_zero_of_lt h1 h1']; simp
  have e2 : (b * V + o2) / V = b := by
    rw [add_comm, Int.add_mul_ediv_right _ _ hV, Int.ediv_eq_zero_of_lt h2 h2']; simp
  have hab : a = b := by rw [← e1, ← e2, h]
  subst hab
  exact ⟨rfl, by linarith⟩

/-! ## The chain switch in block form -/

theorem normal_eq (r V e x m h : Int) (he0 : 0 ≤ e) (he : e < r) (hx0 : 0 ≤ x) (hx : x < V)
    (hfit : r * V ≤ 32767) (hm0 : 0 ≤ m) (hm : m < h) (hh : h ≤ 32767) :
    (⟨wrap16 ((r - (e + 1)) * V + x), wrap16 m⟩ : VirtualCoords)
      = ⟨(r - e - 1) * V + x, m⟩ := by
  have hb := normal_bounds r V e x he0 he hx0 hx
  rw [wrap16_eq_self _ (by omega) (by omega), wrap16_eq_self m (by omega) (by omega)]
  congr 1
  ring

theorem flipped_eq (r V e x m h : Int) (he0 : 0 ≤ e) (he : e < r) (hx0 : 0 ≤ x) (hx : x < V)
    (hfit : r * V ≤ 32767) (hm0 : 0 ≤ m) (hm : m < h) (hh : h ≤ 32767) :
    (⟨wrap16 (r * V - 1 - x - e * V), wrap16 (h - 1 - m)⟩ : VirtualCoords)
      = ⟨(r - e - 1) * V + (V - 1 - x), h - 1 - m⟩ := by
  have hb := flipped_bounds r V e x he0 he hx0 hx
  rw [wrap16_eq_self _ (by omega) (by omega), wrap16_eq_self (h - 1 - m) (by omega) (by omega)]
  congr 1
  ring

theorem chainCoords_eq (p : VirtualMatrixPanel) (g : Geometry p) (x y : Int)
    (hx0 : 0 ≤ x) (hx : x < p.virtualResX) (hy0 : 0 ≤ y) (hy : y < p.virtualResY) :
    chainCoords p x y = blockCoords p x y := by
  obtain ⟨hW, hH, hHle, hR, hC, hVX, hVY, hD, hfit⟩ := g
  have hyr : y < p.vmodule_rows * p.panelResY :=
    wrap16_lt_of_nonneg _ _ (by positivity) (hVY ▸ hy)
  have hdiv : Int.tdiv y p.panelResY = y / p.panelResY := Int.tdiv_eq_ediv hy0 (le_of_lt hH)
  have hmod : Int.tmod y p.panelResY = y % p.panelResY := Int.tmod_eq_emod hy0 (le_of_lt hH)
  have hrow0 : 0 ≤ y / p.panelResY := Int.ediv_nonneg hy0 (le_of_lt hH)
  have hrow : y / p.panelResY < p.vmodule_rows := Int.ediv_lt_of_lt_mul hH hyr
  have hm0 : 0 ≤ y % p.panelResY := Int.emod_nonneg y (ne_of_gt hH)
  have hm : y % p.panelResY < p.panelResY := Int.emod_lt_of_pos y hH
  have hpar : Int.tmod (y / p.panelResY) 2 = (y / p.panelResY) % 2 :=
    Int.tmod_eq_emod hrow0 (by norm_num)
  have hpar2 : Int.tmod (p.vmodule_rows - y / p.panelResY - 1) 2
      = (p.vmodule_rows - y / p.panelResY - 1) % 2 :=
    Int.tmod_eq_emod (by omega) (by norm_num)
  have hN := normal_eq p.vmodule_rows p.virtualResX (y / p.panelResY) x (y % p.panelResY)
    p.panelResY hrow0 hrow hx0 hx hfit hm0 hm hHle
  have hF := flipped_eq p.vmodule_rows p.virtualResX (y / p.panelResY) x (y % p.panelResY)
    p.panelResY hrow0 hrow hx0 hx hfit hm0 hm hHle
  have hN2 := normal_eq p.vmodule_rows p.virtualResX (p.vmodule_rows - y / p.panelResY - 1) x
    (y % p.panelResY) p.panelResY (by omega) (by omega) hx0 hx hfit hm0 hm hHle
  have hF2 := flipped_eq p.vmodule_rows p.virtualResX (p.vmodule_rows - y / p.panelResY - 1) x
    (y % p.panelResY) p.panelResY (by omega) (by omega) hx0 hx hfit hm0 hm hHle
  unfold chainCoords blockCoords effRow isFlipped
  simp only [hdiv, hmod, hpar, hpar2, hD]
  cases p.panel_chain_type <;> simp only [] <;> split <;> rename_i hc
  all_goals first
    | (rw [if_pos (by simp only [decide_eq_true_eq]; omega),
          if_pos (by simp only [decide_eq_true_eq]; omega)]
       first
        | exact hF
        | (rw [show p.vmodule_rows * p.virtualResX - 1
                  - (p.vmodule_rows - y / p.panelResY - 1) * p.virtualResX - x
                = p.vmodule_rows * p.virtualResX - 1 - x
                  - (p.vmodule_rows - y / p.panelResY - 1) * p.virtualResX by ring]
           exact hF2))
    | (rw [if_neg (by simp only [decide_eq_true_eq]; omega),
          if_neg (by simp only [decide_eq_true_eq]; omega)]
       first
        | exact hN
        | exact hN2)

theorem block_bounds (r V e o : Int) (he0 : 0 ≤ e) (he : e < r) (ho0 : 0 ≤ o) (ho : o < V) :
    0 ≤ (r - e - 1) * V + o ∧ (r - e - 1) * V + o < r * V := by
  have h1 : 0 ≤ (r - e - 1) * V := mul_nonneg (by omega) (by omega)
  have h2 : 0 ≤ e * V := mul_nonneg he0 (by omega)
  constructor
  · linarith
  · nlinarith

theorem effRow_bounds (p : VirtualMatrixPanel) (row : Int) (h0 : 0 ≤ row)
    (h1 : row < p.vmodule_rows) : 0 ≤ effRow p row ∧ effRow p row < p.vmodule_rows := by
  unfold effRow
  cases p.panel_chain_type <;> simp only [] <;> omega

theorem effRow_effRow (p : VirtualMatrixPanel) (row : Int) : effRow p (effRow p row) = row := by
  unfold effRow
  cases p.panel_chain_type <;> simp only [] <;> omega

theorem row_bounds (p : VirtualMatrixPanel) (g : Geometry p) (y : Int) (hy0 : 0 ≤ y)
    (hy : y < p.virtualResY) : 0 ≤ y / p.panelResY ∧ y / p.panelResY < p.vmodule_rows := by
  have hyr : y < p.vmodule_rows * p.panelResY :=
    wrap16_lt_of_nonneg _ _ (mul_nonneg (le_of_lt g.rows_pos) (le_of_lt g.resY_pos))
      (g.virtY ▸ hy)
  exact ⟨Int.ediv_nonneg hy0 (le_of_lt g.resY_pos), Int.ediv_lt_of_lt_mul g.resY_pos hyr⟩

theorem blockCoords_range (p : VirtualMatrixPanel) (g : Geometry p) (x y : Int)
    (hx0 : 0 ≤ x) (hx : x < p.virtualResX) (hy0 : 0 ≤ y) (hy : y < p.virtualResY) :
    0 ≤ (blockCoords p x y).x ∧ (blockCoords p x y).x < p.vmodule_rows * p.virtualResX
      ∧ 0 ≤ (blockCoords p x y).y ∧ (blockCoords p x y).y < p.panelResY := by
  obtain ⟨hr0, hr⟩ := row_bounds p g y hy0 hy
  obtain ⟨he0, he⟩ := effRow_bounds p _ hr0 hr
  have hm0 : 0 ≤ y % p.panelResY := Int.emod_nonneg y (ne_of_gt g.resY_pos)
  have hm : y % p.panelResY < p.panelResY := Int.emod_lt_of_pos y g.resY_pos
  unfold blockCoords
  simp only []
  cases isFlipped p (effRow p (y / p.panelResY))
  · have hb := block_bounds p.vmodule_rows p.virtualResX _ x he0 he hx0 hx
    simp only [Bool.false_eq_true, if_false]
    omega
  · have hb := block_bounds p.vmodule_rows p.virtualResX _ (p.virtualResX - 1 - x) he0 he
      (by omega) (by omega)
    simp only [if_true]
    omega

theorem blockCoords_inj (p : VirtualMatrixPanel) (x1 y1 x2 y2 : Int)
    (hx1 : 0 ≤ x1 ∧ x1 < p.virtualResX) (hx2 : 0 ≤ x2 ∧ x2 < p.virtualResX)
    (h : blockCoords p x1 y1 = blockCoords p x2 y2) : x1 = x2 ∧ y1 = y2 := by
  have hd1 := Int.ediv_add_emod y1 p.panelResY
  have hd2 := Int.ediv_add_emod y2 p.panelResY
  unfold blockCoords at h
  simp only [VirtualCoords.mk.injEq] at h
  obtain ⟨hxe, hye⟩ := h
  have hu := block_unique p.virtualResX _ _ _ _
    (by split <;> omega) (by split <;> omega) (by split <;> omega) (by split <;> omega) hxe
  obtain ⟨hee, hoo⟩ := hu
  have he : effRow p (y1 / p.panelResY) = effRow p (y2 / p.panelResY) := by omega
  have hrow : y1 / p.panelResY = y2 / p.panelResY := by
    rw [← effRow_effRow p (y1 / p.panelResY), he, effRow_effRow]
  rw [he] at hoo hye
  rw [hrow] at hd1
  generalize isFlipped p (effRow p (y2 / p.panelResY)) = f at hoo hye
  cases f
  · simp only [Bool.false_eq_true, if_false] at hoo hye
    constructor
    · omega
    · linarith
  · simp only [if_true] at hoo hye
    have hmm : y1 % p.panelResY = y2 % p.panelResY := by omega
    constructor
    · omega
    · linarith

theorem blockCoords_surj (p : VirtualMatrixPanel) (g : Geometry p)
    (hvy : p.vmodule_rows * p.panelResY ≤ 32767) (px py : Int)
    (hpx0 : 0 ≤ px) (hpx : px < p.vmodule_rows * p.virtualResX)
    (hpy0 : 0 ≤ py) (hpy : py < p.panelResY) :
    ∃ x y, (0 ≤ x ∧ x < p.virtualResX ∧ 0 ≤ y ∧ y < p.virtualResY)
      ∧ blockCoords p x y = ⟨px, py⟩ := by
  have hVpos : 0 < p.virtualResX := by
    rw [g.virtX]; exact mul_pos g.cols_pos g.resX_pos
  have hk0 : 0 ≤ px / p.virtualResX := Int.ediv_nonneg hpx0 (le_of_lt hVpos)
  have hk : px / p.virtualResX < p.vmodule_rows := Int.ediv_lt_of_lt_mul hVpos hpx
  have ho0 : 0 ≤ px % p.virtualResX := Int.emod_nonneg px (ne_of_gt hVpos)
  have ho : px % p.virtualResX < p.virtualResX := Int.emod_lt_of_pos px hVpos
  have hdm := Int.ediv_add_emod px p.virtualResX
  have hvy2 : p.virtualResY = p.vmodule_rows * p.panelResY := by
    rw [g.virtY]
    exact wrap16_eq_self _
      (by have := mul_pos g.rows_pos g.resY_pos; omega) hvy
  obtain ⟨hr0, hr⟩ := effRow_bounds p (p.vmodule_rows - 1 - px / p.virtualResX)
    (by omega) (by omega)
  generalize hf : isFlipped p (p.vmodule_rows - 1 - px / p.virtualResX) = f
  refine ⟨if f then p.virtualResX - 1 - px % p.virtualResX else px % p.virtualResX,
    (if f then p.panelResY - 1 - py else py)
      + effRow p (p.vmodule_rows - 1 - px / p.virtualResX) * p.panelResY, ?_, ?_⟩
  · have hrh : (effRow p (p.vmodule_rows - 1 - px / p.virtualResX) + 1) * p.panelResY
        ≤ p.vmodule_rows * p.panelResY :=
      mul_le_mul_of_nonneg_right (by omega) (le_of_lt g.resY_pos)
    have hrh0 : 0 ≤ effRow p (p.vmodule_rows - 1 - px / p.virtualResX) * p.panelResY :=
      mul_nonneg hr0 (le_of_lt g.resY_pos)
    rw [hvy2]
    cases f <;> simp only [Bool.false_eq_true, if_false, if_true] <;>
      refine ⟨by omega, by omega, by omega, by nlinarith⟩
  · have hm0 : 0 ≤ (if f then p.panelResY - 1 - py else py) := by split <;> omega
    have hm : (if f then p.panelResY - 1 - py else py) < p.panelResY := by split <;> omega
    have hdiv : ((if f then p.panelResY - 1 - py else py)
        + effRow p (p.vmodule_rows - 1 - px / p.virtualResX) * p.panelResY) / p.panelResY
        = effRow p (p.vmodule_rows - 1 - px / p.virtualResX) := by
      rw [Int.add_mul_ediv_right _ _ (ne_of_gt g.resY_pos), Int.ediv_eq_zero_of_lt hm0 hm]
      simp
    have hmod : ((if f then p.panelResY - 1 - py else py)
        + effRow p (p.vmodule_rows - 1 - px / p.virtualResX) * p.panelResY) % p.panelResY
        = (if f then p.panelResY - 1 - py else py) := by
      rw [Int.add_mul_emod_self, Int.emod_eq_of_lt hm0 hm]
    unfold blockCoords
    simp only [hdiv, hmod, effRow_effRow, hf]
    have hx : (p.vmodule_rows - (p.vmodule_rows - 1 - px / p.virtualResX) - 1) * p.virtualResX
        = p.virtualResX * (px / p.virtualResX) := by ring
    rw [hx]
    cases f <;> simp only [Bool.false_eq_true, if_false, if_true, VirtualCoords.mk.injEq] <;>
      constructor <;> first | trivial | linarith

/-! ## The constructor and `getCoords` on the canvas -/

theorem configured_geometry (R C W H : Int) (t : PANEL_CHAIN_TYPE) (rot : Bool)
    (rate : PANEL_SCAN_RATE) (p : VirtualMatrixPanel) (hp : p = configured R C W H t rot rate)
    (hW : 0 < p.panelResX) (hH : 0 < p.panelResY) (hR : 0 < p.vmodule_rows)
    (hC : 0 < p.vmodule_cols)
    (hfit : p.panelResX * p.vmodule_rows * p.vmodule_cols ≤ 32767) : Geometry p := by
  subst hp
  simp only [configured, setRotate, setPhysicalPanelScanRate, VirtualMatrixPanel.new] at *
  have hcw : 0 < wrap16 C * wrap16 W := mul_pos hC hW
  have hle : wrap16 C * wrap16 W ≤ wrap16 W * wrap16 R * wrap16 C := by
    have : 0 ≤ (wrap16 C * wrap16 W) * (wrap16 R - 1) := mul_nonneg (le_of_lt hcw) (by omega)
    nlinarith
  have hVX : wrap16 (wrap16 C * W) = wrap16 C * wrap16 W := by
    rw [wrap16_mul_wrap16]
    exact wrap16_eq_self _ (by omega) (by omega)
  have hprod : wrap16 W * wrap16 R * wrap16 C = wrap16 R * (wrap16 C * wrap16 W) := by ring
  refine ⟨hW, hH, (wrap16_bounds H).2, hR, hC, hVX, ?_, ?_, ?_⟩
  · exact wrap16_mul_wrap16 _ _
  · rw [hVX, ← hprod]
    exact wrap16_eq_self _ (by omega) (by omega)
  · rw [hVX, ← hprod]
    exact hfit

theorem getCoords_out (p : VirtualMatrixPanel) (x y : Int)
    (h : x < 0 ∨ x ≥ p.virtualResX ∨ y < 0 ∨ y ≥ p.virtualResY) :
    (getCoords p x y).coords = ⟨-1, -1⟩ := by
  unfold getCoords
  simp only []
  rw [if_pos h]

theorem getCoords_in (p : VirtualMatrixPanel) (x y : Int) (h : inRange p x y) :
    (getCoords p x y).coords
      = scanCoords p
          (chainCoords p (if p._rotate then y else x)
            (if p._rotate then wrap16 (p.virtualResY - 1 - x) else y))
          (if p._rotate then wrap16 (p.virtualResY - 1 - x) else y) := by
  have hn : ¬ (x < 0 ∨ x ≥ p.virtualResX ∨ y < 0 ∨ y ≥ p.virtualResY) := by
    unfold inRange at h; omega
  unfold getCoords
  simp only []
  rw [if_neg hn]
  rfl

theorem scanCoords_two_scan (p : VirtualMatrixPanel) (c : VirtualCoords) (vy : Int)
    (h : p.panel_scan_rate = NORMAL_TWO_SCAN ∨ p.panel_scan_rate = NORMAL_ONE_SIXTEEN) :
    scanCoords p c vy = c := by
  unfold scanCoords
  rcases h with h | h <;> rw [h]

theorem getCoords_two_scan (p : VirtualMatrixPanel) (g : Geometry p)
    (hs : p.panel_scan_rate = NORMAL_TWO_SCAN ∨ p.panel_scan_rate = NORMAL_ONE_SIXTEEN)
    (hr : p._rotate = false) (x y : Int) (h : inRange p x y) :
    (getCoords p x y).coords = blockCoords p x y := by
  rw [getCoords_in p x y h, scanCoords_two_scan p _ _ hs, hr]
  simp only [Bool.false_eq_true, if_false]
  exact chainCoords_eq p g x y h.1 h.2.1 h.2.2.1 h.2.2.2

theorem blockCoords_eq_ref (p : VirtualMatrixPanel) (g : Geometry p) (x y : Int) :
    blockCoords p x y = refResolve p x y := by
  have hD := g.dma
  unfold blockCoords refResolve refNormal refFlipped effRow isFlipped
  simp only [hD]
  cases p.panel_chain_type <;> simp only [] <;> split <;> rename_i hc
  all_goals simp only [decide_eq_true_eq] at hc
  all_goals first
    | (rw [if_pos (by omega)]; congr 1; ring)
    | (rw [if_neg (by omega)]; congr 1; ring)
    | rw [if_pos (by omega)]
    | rw [if_neg (by omega)]

/-- C1. For every panel state, that is every geometry, chain topology,
rotation flag and scan rate and whatever the scratch member `coords` held
before the call, and for every `(x, y)` with `x < 0`, `x ≥ virtualResX`, `y < 0`
or `y ≥ virtualResY`, `getCoords` leaves the Invalid sentinel `coords.x = -1`,
`coords.y = -1`. -/
theorem getCoords_out_of_range_invalid (p : VirtualMatrixPanel) (x y : Int)
    (h : x < 0 ∨ x ≥ p.virtualResX ∨ y < 0 ∨ y ≥ p.virtualResY) :
    (getCoords p x y).coords.x = -1 ∧ (getCoords p x y).coords.y = -1 := by
  unfold getCoords
  simp only []
  rw [if_pos h]
  exact ⟨rfl, rfl⟩

theorem getCoords_out_of_range_invalid_witness :
    (getCoords grid2x2 5 40).coords = ⟨122, 23⟩
      ∧ ((128 : Int) < 0 ∨ (128 : Int) ≥ (getCoords grid2x2 5 40).virtualResX
        ∨ (5 : Int) < 0 ∨ (5 : Int) ≥ (getCoords grid2x2 5 40).virtualResY)
      ∧ (getCoords (getCoords grid2x2 5 40) 128 5).coords.x = -1
      ∧ (getCoords (getCoords grid2x2 5 40) 128 5).coords.y = -1 :=
  ⟨by decide, by decide,
    getCoords_out_of_range_invalid (getCoords grid2x2 5 40) 128 5 (by decide)⟩

/-- C2, as stated, fails: on `tallChain` every dimension is positive and
`panelWidth*chainRows*chainCols = 16384` fits `int16_t`, yet `virtualResY` is
stored as `-32768`, no input is in range, and the physical pixel `(0, 0)` of the
chain has no preimage. -/
theorem two_scan_bijection_counterexample :
    (0 < tallChain.panelResX ∧ 0 < tallChain.panelResY ∧ 0 < tallChain.vmodule_rows
        ∧ 0 < tallChain.vmodule_cols
        ∧ tallChain.panelResX * tallChain.vmodule_rows * tallChain.vmodule_cols ≤ 32767)
      ∧ (0 < tallChain.panelResX * tallChain.vmodule_rows * tallChain.vmodule_cols
        ∧ 0 < tallChain.panelResY)
      ∧ ¬ ∃ x y : Int, inRange tallChain x y ∧ (getCoords tallChain x y).coords = ⟨0, 0⟩ := by
  refine ⟨by decide, by decide, ?_⟩
  rintro ⟨x, y, h, -⟩
  have hv : tallChain.virtualResY = -32768 := by decide
  unfold inRange at h
  omega

/-- C2, amended. In `NORMAL_TWO_SCAN` mode with rotation off, for each chain
topology and every geometry with positive dimensions whose chain width
`panelWidth*chainRows*chainCols` and canvas height `chainRows*panelHeight` both
fit `int16_t`: every in-range input is mapped into
`[0, panelWidth*chainRows*chainCols) × [0, panelHeight)`, `getCoords` is
injective on the in-range inputs, and every pixel of the physical chain is the
image of an in-range input. -/
theorem two_scan_bijection (R C W H : Int) (t : PANEL_CHAIN_TYPE) (p : VirtualMatrixPanel)
    (hp : p = configured R C W H t false NORMAL_TWO_SCAN)
    (hW : 0 < p.panelResX) (hH : 0 < p.panelResY) (hR : 0 < p.vmodule_rows)
    (hC : 0 < p.vmodule_cols)
    (hfit : p.panelResX * p.vmodule_rows * p.vmodule_cols ≤ 32767)
    (hvy : p.vmodule_rows * p.panelResY ≤ 32767) :
    MapsIntoChain p ∧ InjectiveOnCanvas p ∧ CoversChain p := by
  unfold MapsIntoChain InjectiveOnCanvas CoversChain
  have g := configured_geometry R C W H t false NORMAL_TWO_SCAN p hp hW hH hR hC hfit
  have hs : p.panel_scan_rate = NORMAL_TWO_SCAN ∨ p.panel_scan_rate = NORMAL_ONE_SIXTEEN := by
    left; rw [hp]; rfl
  have hr : p._rotate = false := by rw [hp]; rfl
  have hw : p.panelResX * p.vmodule_rows * p.vmodule_cols = p.vmodule_rows * p.virtualResX := by
    rw [g.virtX]; ring
  rw [hw]
  refine ⟨?_, ?_, ?_⟩
  · intro x y h
    rw [getCoords_two_scan p g hs hr x y h]
    exact blockCoords_range p g x y h.1 h.2.1 h.2.2.1 h.2.2.2
  · intro x1 y1 x2 y2 h1 h2 he
    rw [getCoords_two_scan p g hs hr x1 y1 h1, getCoords_two_scan p g hs hr x2 y2 h2] at he
    exact blockCoords_inj p x1 y1 x2 y2 ⟨h1.1, h1.2.1⟩ ⟨h2.1, h2.2.1⟩ he
  · intro px py h0 h1 h2 h3
    obtain ⟨x, y, hin, he⟩ := blockCoords_surj p g hvy px py h0 h1 h2 h3
    exact ⟨x, y, hin, by rw [getCoords_two_scan p g hs hr x y hin, he]⟩

theorem two_scan_bijection_witness :
    (grid2x2 = configured 2 2 64 32 CHAIN_TOP_RIGHT_DOWN false NORMAL_TWO_SCAN
        ∧ 0 < grid2x2.panelResX ∧ 0 < grid2x2.panelResY ∧ 0 < grid2x2.vmodule_rows
        ∧ 0 < grid2x2.vmodule_cols
        ∧ grid2x2.panelResX * grid2x2.vmodule_rows * grid2x2.vmodule_cols ≤ 32767
        ∧ grid2x2.vmodule_rows * grid2x2.panelResY ≤ 32767)
      ∧ (MapsIntoChain grid2x2 ∧ InjectiveOnCanvas grid2x2 ∧ CoversChain grid2x2) :=
  ⟨⟨rfl, by decide⟩,
    two_scan_bijection 2 2 64 32 CHAIN_TOP_RIGHT_DOWN grid2x2 rfl (by decide) (by decide)
      (by decide) (by decide) (by decide) (by decide)⟩

/-- C3, as stated, fails: on `wideChain` the input `(0, 0)` is in range and lies
in the even row 0 of a `CHAIN_TOP_RIGHT_DOWN` chain; `NORMAL(0)` has column
`(65 - 0 - 1) * 512 + 0 = 32768`, but the `int16_t` member `coords.x` holds
`-32768`. -/
theorem chain_resolver_counterexample :
    inRange wideChain 0 0
      ∧ refResolve wideChain 0 0 = ⟨32768, 0⟩
      ∧ (getCoords wideChain 0 0).coords = ⟨-32768, 0⟩
      ∧ (getCoords wideChain 0 0).coords ≠ refResolve wideChain 0 0 := by
  decide

/-- C3, amended. In `NORMAL_TWO_SCAN` mode with rotation off, for every
geometry with positive dimensions whose chain width
`panelWidth*chainRows*chainCols` fits `int16_t` and every in-range `(x, y)`,
`getCoords` returns the reference resolver `refResolve`: `FLIPPED`/`NORMAL` of
`row = y / panelHeight` by its parity for the top chains, of
`chainRows - row - 1` for the bottom chains. -/
theorem chain_resolver_eq_reference (R C W H : Int) (t : PANEL_CHAIN_TYPE)
    (p : VirtualMatrixPanel) (hp : p = configured R C W H t false NORMAL_TWO_SCAN)
    (hW : 0 < p.panelResX) (hH : 0 < p.panelResY) (hR : 0 < p.vmodule_rows)
    (hC : 0 < p.vmodule_cols)
    (hfit : p.panelResX * p.vmodule_rows * p.vmodule_cols ≤ 32767)
    (x y : Int) (h : inRange p x y) :
    (getCoords p x y).coords = refResolve p x y := by
  have g := configured_geometry R C W H t false NORMAL_TWO_SCAN p hp hW hH hR hC hfit
  have hs : p.panel_scan_rate = NORMAL_TWO_SCAN ∨ p.panel_scan_rate = NORMAL_ONE_SIXTEEN := by
    left; rw [hp]; rfl
  have hr : p._rotate = false := by rw [hp]; rfl
  rw [getCoords_two_scan p g hs hr x y h, blockCoords_eq_ref p g x y]

theorem chain_resolver_eq_reference_witness :
    (grid2x2 = configured 2 2 64 32 CHAIN_TOP_RIGHT_DOWN false NORMAL_TWO_SCAN
        ∧ 0 < grid2x2.panelResX ∧ 0 < grid2x2.panelResY ∧ 0 < grid2x2.vmodule_rows
        ∧ 0 < grid2x2.vmodule_cols
        ∧ grid2x2.panelResX * grid2x2.vmodule_rows * grid2x2.vmodule_cols ≤ 32767
        ∧ inRange grid2x2 5 40)
      ∧ (getCoords grid2x2 5 40).coords = refResolve grid2x2 5 40 :=
  ⟨⟨rfl, by decide⟩,
    chain_resolver_eq_reference 2 2 64 32 CHAIN_TOP_RIGHT_DOWN grid2x2 rfl (by decide)
      (by decide) (by decide) (by decide) (by decide) 5 40 (by decide)⟩

/-- C4, as stated, fails: a single 64x32 panel in `FOUR_SCAN_32PX_HIGH` mode
maps the in-range input `(0, 0)` to column 64, outside
`[0, panelWidth*chainRows*chainCols) = [0, 64)`. -/
theorem physical_range_counterexample :
    inRange fourScanPanel 0 0
      ∧ (getCoords fourScanPanel 0 0).coords = ⟨64, 0⟩
      ∧ ¬ ((getCoords fourScanPanel 0 0).coords.x
            < fourScanPanel.panelResX * fourScanPanel.vmodule_rows * fourScanPanel.vmodule_cols) := by
  decide

/-- C4, amended. With a two-scan scan rate (`NORMAL_TWO_SCAN` or
`NORMAL_ONE_SIXTEEN`) and rotation off, for every chain topology, every geometry
with positive dimensions whose chain width fits `int16_t` and every in-range
input, `getCoords` returns `0 ≤ coords.x < panelWidth*chainRows*chainCols` and
`0 ≤ coords.y < panelHeight`. -/
theorem physical_range_two_scan (R C W H : Int) (t : PANEL_CHAIN_TYPE) (rate : PANEL_SCAN_RATE)
    (p : VirtualMatrixPanel) (hp : p = configured R C W H t false rate)
    (hrate : rate = NORMAL_TWO_SCAN ∨ rate = NORMAL_ONE_SIXTEEN)
    (hW : 0 < p.panelResX) (hH : 0 < p.panelResY) (hR : 0 < p.vmodule_rows)
    (hC : 0 < p.vmodule_cols)
    (hfit : p.panelResX * p.vmodule_rows * p.vmodule_cols ≤ 32767) :
    MapsIntoChain p := by
  have g := configured_geometry R C W H t false rate p hp hW hH hR hC hfit
  have hs : p.panel_scan_rate = NORMAL_TWO_SCAN ∨ p.panel_scan_rate = NORMAL_ONE_SIXTEEN := by
    rw [hp]; exact hrate
  have hr : p._rotate = false := by rw [hp]; rfl
  have hw : p.panelResX * p.vmodule_rows * p.vmodule_cols = p.vmodule_rows * p.virtualResX := by
    rw [g.virtX]; ring
  intro x y h
  rw [hw, getCoords_two_scan p g hs hr x y h]
  exact blockCoords_range p g x y h.1 h.2.1 h.2.2.1 h.2.2.2

theorem physical_range_two_scan_witness :
    (configured 3 2 64 32 CHAIN_BOTTOM_LEFT_UP false NORMAL_ONE_SIXTEEN
          = configured 3 2 64 32 CHAIN_BOTTOM_LEFT_UP false NORMAL_ONE_SIXTEEN
        ∧ (NORMAL_ONE_SIXTEEN = NORMAL_TWO_SCAN ∨ NORMAL_ONE_SIXTEEN = NORMAL_ONE_SIXTEEN)
        ∧ 0 < (configured 3 2 64 32 CHAIN_BOTTOM_LEFT_UP false NORMAL_ONE_SIXTEEN).panelResX
        ∧ 0 < (configured 3 2 64 32 CHAIN_BOTTOM_LEFT_UP false NORMAL_ONE_SIXTEEN).panelResY
        ∧ 0 < (configured 3 2 64 32 CHAIN_BOTTOM_LEFT_UP false NORMAL_ONE_SIXTEEN).vmodule_rows
        ∧ 0 < (configured 3 2 64 32 CHAIN_BOTTOM_LEFT_UP false NORMAL_ONE_SIXTEEN).vmodule_cols
        ∧ (configured 3 2 64 32 CHAIN_BOTTOM_LEFT_UP false NORMAL_ONE_SIXTEEN).panelResX
            * (configured 3 2 64 32 CHAIN_BOTTOM_LEFT_UP false NORMAL_ONE_SIXTEEN).vmodule_rows
            * (configured 3 2 64 32 CHAIN_BOTTOM_LEFT_UP false NORMAL_ONE_SIXTEEN).vmodule_cols
          ≤ 32767)
      ∧ MapsIntoChain (configured 3 2 64 32 CHAIN_BOTTOM_LEFT_UP false NORMAL_ONE_SIXTEEN) :=
  ⟨⟨rfl, by decide⟩,
    physical_range_two_scan 3 2 64 32 CHAIN_BOTTOM_LEFT_UP NORMAL_ONE_SIXTEEN _ rfl
      (by decide) (by decide) (by decide) (by decide) (by decide) (by decide)⟩

/-! ## The scan-rate folds -/

theorem land_seven (y : Int) (hy : 0 ≤ y) : Int.land y 7 = y % 8 := by
  obtain ⟨n, rfl⟩ := Int.eq_ofNat_of_zero_le hy
  show ((n &&& 7 : Nat) : Int) = _
  have h := Nat.and_pow_two_sub_one_eq_mod n 3
  norm_num at h
  rw [h]
  norm_cast

theorem shiftRight_four (y : Int) : Int.shiftRight y 4 = y / 16 := by
  have h := Int.shiftRight_eq_div_pow y 4
  simpa using h

theorem land_seven_sub (y : Int) (hy : 32 ≤ y) : Int.land (y - 32) 7 = Int.land y 7 := by
  rw [land_seven _ (by omega), land_seven _ (by omega)]
  omega

theorem foldY_fits (y : Int) (h0 : 0 ≤ y) (h1 : y ≤ 32767) : wrap16 (foldY y) = foldY y := by
  unfold foldY
  rw [land_seven y h0, shiftRight_four]
  exact wrap16_eq_self _ (by omega) (by omega)

theorem foldY_sub_fits (y : Int) (h0 : 32 ≤ y) (h1 : y ≤ 32767) :
    wrap16 (Int.shiftRight (y - 32) 4 * 8 + Int.land y 7) = foldY (y - 32) := by
  unfold foldY
  rw [land_seven_sub y h0, land_seven y (by omega), shiftRight_four]
  exact wrap16_eq_self _ (by omega) (by omega)

theorem configured_virtualResY_le (R C W H : Int) (t : PANEL_CHAIN_TYPE) (rot : Bool)
    (rate : PANEL_SCAN_RATE) : (configured R C W H t rot rate).virtualResY ≤ 32767 :=
  (wrap16_bounds _).2

theorem wrap16_wrap16_add (a b : Int) : wrap16 (wrap16 a + b) = wrap16 (a + b) := by
  unfold wrap16; omega

theorem scanCoords_32 (p : VirtualMatrixPanel) (hs : p.panel_scan_rate = FOUR_SCAN_32PX_HIGH)
    (c : VirtualCoords) (y : Int) (h0 : 0 ≤ y) (h1 : y ≤ 32767) :
    scanCoords p c y = { x := wrap16 (fold32X p.panelResX c.x y), y := foldY y } := by
  have hy := foldY_fits y h0 h1
  unfold foldY at hy
  unfold scanCoords fold32X foldY
  rw [hs]
  simp only [hy, VirtualCoords.mk.injEq, and_true]
  split <;> rfl

theorem scanCoords_16 (p : VirtualMatrixPanel) (hs : p.panel_scan_rate = FOUR_SCAN_16PX_HIGH)
    (c : VirtualCoords) (y : Int) (h0 : 0 ≤ y) (h1 : y ≤ 32767) :
    scanCoords p c y
      = { x := wrap16 (fold16 p.panelResX c.x y).x, y := (fold16 p.panelResX c.x y).y } := by
  have hy := foldY_fits y h0 h1
  unfold foldY at hy
  unfold scanCoords fold16 fold16Offset
  rw [hs]
  by_cases hlt : y < 32
  · simp only [if_pos hlt, hy, foldY, VirtualCoords.mk.injEq, and_true]
    split <;> rfl
  · have hy2 := foldY_sub_fits y (by omega) h1
    simp only [if_neg hlt, hy2, VirtualCoords.mk.injEq, and_true]
    split <;> exact wrap16_wrap16_add _ _

theorem getCoords_four_scan_32 (R C W H : Int) (t : PANEL_CHAIN_TYPE) (x y : Int)
    (h : inRange (configured R C W H t false NORMAL_TWO_SCAN) x y) :
    (getCoords (configured R C W H t false FOUR_SCAN_32PX_HIGH) x y).coords
      = { x := wrap16 (fold32X (configured R C W H t false NORMAL_TWO_SCAN).panelResX
                (getCoords (configured R C W H t false NORMAL_TWO_SCAN) x y).coords.x y)
          y := foldY y } := by
  have hle := configured_virtualResY_le R C W H t false NORMAL_TWO_SCAN
  have hy1 : y ≤ 32767 := by have := h.2.2.2; omega
  rw [getCoords_in (configured R C W H t false FOUR_SCAN_32PX_HIGH) x y h,
    getCoords_in (configured R C W H t false NORMAL_TWO_SCAN) x y h,
    scanCoords_two_scan (configured R C W H t false NORMAL_TWO_SCAN) _ _ (Or.inl rfl)]
  exact scanCoords_32 (configured R C W H t false FOUR_SCAN_32PX_HIGH) rfl _ y h.2.2.1 hy1

theorem getCoords_four_scan_16 (R C W H : Int) (t : PANEL_CHAIN_TYPE) (x y : Int)
    (h : inRange (configured R C W H t false NORMAL_TWO_SCAN) x y) :
    (getCoords (configured R C W H t false FOUR_SCAN_16PX_HIGH) x y).coords
      = { x := wrap16 (fold16 (configured R C W H t false NORMAL_TWO_SCAN).panelResX
                (getCoords (configured R C W H t false NORMAL_TWO_SCAN) x y).coords.x y).x
          y := (fold16 (configured R C W H t false NORMAL_TWO_SCAN).panelResX
                (getCoords (configured R C W H t false NORMAL_TWO_SCAN) x y).coords.x y).y } := by
  have hle := configured_virtualResY_le R C W H t false NORMAL_TWO_SCAN
  have hy1 : y ≤ 32767 := by have := h.2.2.2; omega
  rw [getCoords_in (configured R C W H t false FOUR_SCAN_16PX_HIGH) x y h,
    getCoords_in (configured R C W H t false NORMAL_TWO_SCAN) x y h,
    scanCoords_two_scan (configured R C W H t false NORMAL_TWO_SCAN) _ _ (Or.inl rfl)]
  exact scanCoords_16 (configured R C W H t false FOUR_SCAN_16PX_HIGH) rfl _ y h.2.2.1 hy1

theorem fold32X_bounds (w px n y : Int) (hw : 0 < w) (h0 : 0 ≤ px) (h1 : px < n * w) :
    0 ≤ fold32X w px y ∧ fold32X w px y < 2 * (n * w) := by
  have hd : Int.tdiv px w = px / w := Int.tdiv_eq_ediv h0 (le_of_lt hw)
  have hq0 : 0 ≤ px / w := Int.ediv_nonneg h0 (le_of_lt hw)
  have hq : px / w < n := Int.ediv_lt_of_lt_mul hw h1
  have hqw : 0 ≤ px / w * w := mul_nonneg hq0 (le_of_lt hw)
  have hle : (px / w + 1) * w ≤ n * w := mul_le_mul_of_nonneg_right (by omega) (le_of_lt hw)
  have hexp : (px / w + 1) * w = px / w * w + w := by ring
  unfold fold32X
  rw [hd]
  split <;> constructor <;> omega

theorem four_scan_32_fits (R C W H : Int) (t : PANEL_CHAIN_TYPE) (p : VirtualMatrixPanel)
    (hp : p = configured R C W H t false NORMAL_TWO_SCAN)
    (hW : 0 < p.panelResX) (hH : 0 < p.panelResY) (hR : 0 < p.vmodule_rows)
    (hC : 0 < p.vmodule_cols)
    (hfit : p.panelResX * p.vmodule_rows * p.vmodule_cols ≤ 32767)
    (x y : Int) (h : inRange p x y) :
    0 ≤ fold32X p.panelResX (getCoords p x y).coords.x y
      ∧ fold32X p.panelResX (getCoords p x y).coords.x y
          < 2 * (p.panelResX * p.vmodule_rows * p.vmodule_cols) := by
  have g := configured_geometry R C W H t false NORMAL_TWO_SCAN p hp hW hH hR hC hfit
  have hs : p.panel_scan_rate = NORMAL_TWO_SCAN ∨ p.panel_scan_rate = NORMAL_ONE_SIXTEEN := by
    left; rw [hp]; rfl
  have hr : p._rotate = false := by rw [hp]; rfl
  have hb := blockCoords_range p g x y h.1 h.2.1 h.2.2.1 h.2.2.2
  have hw : p.panelResX * p.vmodule_rows * p.vmodule_cols
      = p.vmodule_rows * p.vmodule_cols * p.panelResX := by ring
  have hv : p.vmodule_rows * p.virtualResX = p.vmodule_rows * p.vmodule_cols * p.panelResX := by
    rw [g.virtX]; ring
  rw [getCoords_two_scan p g hs hr x y h, hw]
  exact fold32X_bounds _ _ _ y hW hb.1 (by rw [← hv]; exact hb.2.1)

/-! ## Claims about rotation, the folds, the constructor and the facade -/

/-- C5, the code at a failing input. On a single 64x32 panel the canvas point
`(u, v) = (40, 0)` is in range and maps to `(40, 0)` with rotation off; with
rotation on, its inversely rotated image `(virtualResY - 1 - v, u) = (31, 40)`
is rejected by the bounds check, which still compares against the unrotated
extents, and `getCoords` leaves the Invalid sentinel. -/
theorem rotation_involution_fails :
    inRange (singlePanel false) 40 0
      ∧ (getCoords (singlePanel false) 40 0).coords = ⟨40, 0⟩
      ∧ (singlePanel true).virtualResY - 1 - 0 = 31
      ∧ (getCoords (singlePanel true) ((singlePanel true).virtualResY - 1 - 0) 40).coords
          = ⟨-1, -1⟩ := by
  decide

/-- C6, as stated, fails: on a row of 257 panels 64x32 the in-range input
`(16447, 0)` has two-scan column `px = 16447` and `(0 & 8) = 0`, so the claimed
column is `px + ((px / 64) + 1) * 64 = 32895`; the `int16_t` member `coords.x`
holds `-32641`. -/
theorem four_scan_32_fold_counterexample :
    inRange (longChain NORMAL_TWO_SCAN) 16447 0
      ∧ (getCoords (longChain NORMAL_TWO_SCAN) 16447 0).coords = ⟨16447, 0⟩
      ∧ Int.land 0 8 = 0
      ∧ (16447 : Int) + (Int.tdiv 16447 64 + 1) * 64 = 32895
      ∧ (getCoords (longChain FOUR_SCAN_32PX_HIGH) 16447 0).coords.x = -32641 := by
  decide

/-- C6, amended. With rotation off, for every geometry, topology and in-range
`(x, y)`, with `px` the `NORMAL_TWO_SCAN` column for the same input: whenever
the folded column `fold32X panelWidth px y` fits `int16_t`, the
`FOUR_SCAN_32PX_HIGH` result is exactly `x' = fold32X panelWidth px y`, that is
`px + ((px / panelWidth) + 1) * panelWidth` when `(y & 8) = 0` and
`px + (px / panelWidth) * panelWidth` otherwise, and
`y' = (y >> 4) * 8 + (y & 7)`; rows 0 and 16 select the first branch, rows 8
and 24 the second. -/
theorem four_scan_32_fold_exact (R C W H : Int) (t : PANEL_CHAIN_TYPE) (x y : Int)
    (h : inRange (configured R C W H t false NORMAL_TWO_SCAN) x y)
    (hfit : -32768 ≤ fold32X (configured R C W H t false NORMAL_TWO_SCAN).panelResX
                (getCoords (configured R C W H t false NORMAL_TWO_SCAN) x y).coords.x y
      ∧ fold32X (configured R C W H t false NORMAL_TWO_SCAN).panelResX
                (getCoords (configured R C W H t false NORMAL_TWO_SCAN) x y).coords.x y
          ≤ 32767) :
    (getCoords (configured R C W H t false FOUR_SCAN_32PX_HIGH) x y).coords
        = { x := fold32X (configured R C W H t false NORMAL_TWO_SCAN).panelResX
                  (getCoords (configured R C W H t false NORMAL_TWO_SCAN) x y).coords.x y
            y := Int.shiftRight y 4 * 8 + Int.land y 7 }
      ∧ (∀ w q : Int,
          fold32X w q 0 = q + (Int.tdiv q w + 1) * w
            ∧ fold32X w q 16 = q + (Int.tdiv q w + 1) * w
            ∧ fold32X w q 8 = q + Int.tdiv q w * w
            ∧ fold32X w q 24 = q + Int.tdiv q w * w) := by
  constructor
  · rw [getCoords_four_scan_32 R C W H t x y h, wrap16_eq_self _ hfit.1 hfit.2]
    rfl
  · intro w q
    unfold fold32X
    exact ⟨if_pos (by decide), if_pos (by decide), if_neg (by decide), if_neg (by decide)⟩

theorem four_scan_32_fold_exact_witness :
    (inRange (configured 1 2 64 32 CHAIN_TOP_LEFT_DOWN false NORMAL_TWO_SCAN) 70 9
        ∧ (-32768 ≤ fold32X (configured 1 2 64 32 CHAIN_TOP_LEFT_DOWN false NORMAL_TWO_SCAN).panelResX
              (getCoords (configured 1 2 64 32 CHAIN_TOP_LEFT_DOWN false NORMAL_TWO_SCAN) 70 9).coords.x 9
          ∧ fold32X (configured 1 2 64 32 CHAIN_TOP_LEFT_DOWN false NORMAL_TWO_SCAN).panelResX
              (getCoords (configured 1 2 64 32 CHAIN_TOP_LEFT_DOWN false NORMAL_TWO_SCAN) 70 9).coords.x 9
            ≤ 32767))
      ∧ ((getCoords (configured 1 2 64 32 CHAIN_TOP_LEFT_DOWN false FOUR_SCAN_32PX_HIGH) 70 9).coords
          = { x := fold32X (configured 1 2 64 32 CHAIN_TOP_LEFT_DOWN false NORMAL_TWO_SCAN).panelResX
                    (getCoords (configured 1 2 64 32 CHAIN_TOP_LEFT_DOWN false NORMAL_TWO_SCAN) 70 9).coords.x 9
              y := Int.shiftRight 9 4 * 8 + Int.land 9 7 }
        ∧ (∀ w q : Int,
            fold32X w q 0 = q + (Int.tdiv q w + 1) * w
              ∧ fold32X w q 16 = q + (Int.tdiv q w + 1) * w
              ∧ fold32X w q 8 = q + Int.tdiv q w * w
              ∧ fold32X w q 24 = q + Int.tdiv q w * w)) :=
  ⟨by decide,
    four_scan_32_fold_exact 1 2 64 32 CHAIN_TOP_LEFT_DOWN 70 9 (by decide) (by decide)⟩

/-- C7, as stated, fails: on a row of 257 panels 64x16 the in-range input
`(16447, 0)` has two-scan column `px = 16447`, `(0 & 8) = 0` and column offset
`(64 >> 2) * (((px & 0xFFF0) >> 4) + 1) = 16448`, so the claimed column is
`32895`; the `int16_t` member `coords.x` holds `-32641`. -/
theorem four_scan_16_fold_counterexample :
    inRange (longChain16 NORMAL_TWO_SCAN) 16447 0
      ∧ (getCoords (longChain16 NORMAL_TWO_SCAN) 16447 0).coords = ⟨16447, 0⟩
      ∧ Int.land 0 8 = 0
      ∧ Int.shiftRight 64 2 * (Int.shiftRight (Int.land 16447 0xFFF0) 4 + 1) = 16448
      ∧ (16447 : Int) + 16448 = 32895
      ∧ (getCoords (longChain16 FOUR_SCAN_16PX_HIGH) 16447 0).coords.x = -32641 := by
  decide

/-- C7, amended. With rotation off, for every geometry, topology and in-range
`(x, y)`, with `px` the `NORMAL_TWO_SCAN` column for the same input: whenever
the folded column fits `int16_t`, the `FOUR_SCAN_16PX_HIGH` result is exactly
`fold16 panelWidth px y`: the column offset
`(panelWidth >> 2) * (((px & 0xFFF0) >> 4) + 1)` (without the `+ 1` when
`(y & 8) ≠ 0`) is added to `px`; for `y < 32` the row is
`(y >> 4) * 8 + (y & 7)`; for `y ≥ 32` the row is
`((y - 32) >> 4) * 8 + ((y - 32) & 7)` and a further 256 is added to the
column. -/
theorem four_scan_16_fold_exact (R C W H : Int) (t : PANEL_CHAIN_TYPE) (x y : Int)
    (h : inRange (configured R C W H t false NORMAL_TWO_SCAN) x y)
    (hfit : -32768 ≤ (fold16 (configured R C W H t false NORMAL_TWO_SCAN).panelResX
                (getCoords (configured R C W H t false NORMAL_TWO_SCAN) x y).coords.x y).x
      ∧ (fold16 (configured R C W H t false NORMAL_TWO_SCAN).panelResX
                (getCoords (configured R C W H t false NORMAL_TWO_SCAN) x y).coords.x y).x
          ≤ 32767) :
    (getCoords (configured R C W H t false FOUR_SCAN_16PX_HIGH) x y).coords
      = fold16 (configured R C W H t false NORMAL_TWO_SCAN).panelResX
          (getCoords (configured R C W H t false NORMAL_TWO_SCAN) x y).coords.x y := by
  rw [getCoords_four_scan_16 R C W H t x y h, wrap16_eq_self _ hfit.1 hfit.2]

theorem four_scan_16_fold_exact_witness :
    (inRange (configured 3 1 64 16 CHAIN_TOP_RIGHT_DOWN false NORMAL_TWO_SCAN) 5 40
        ∧ (-32768 ≤ (fold16 (configured 3 1 64 16 CHAIN_TOP_RIGHT_DOWN false NORMAL_TWO_SCAN).panelResX
              (getCoords (configured 3 1 64 16 CHAIN_TOP_RIGHT_DOWN false NORMAL_TWO_SCAN) 5 40).coords.x
              40).x
          ∧ (fold16 (configured 3 1 64 16 CHAIN_TOP_RIGHT_DOWN false NORMAL_TWO_SCAN).panelResX
              (getCoords (configured 3 1 64 16 CHAIN_TOP_RIGHT_DOWN false NORMAL_TWO_SCAN) 5 40).coords.x
              40).x ≤ 32767))
      ∧ (getCoords (configured 3 1 64 16 CHAIN_TOP_RIGHT_DOWN false FOUR_SCAN_16PX_HIGH) 5 40).coords
          = fold16 (configured 3 1 64 16 CHAIN_TOP_RIGHT_DOWN false NORMAL_TWO_SCAN).panelResX
              (getCoords (configured 3 1 64 16 CHAIN_TOP_RIGHT_DOWN false NORMAL_TWO_SCAN) 5 40).coords.x
              40 :=
  ⟨by decide,
    four_scan_16_fold_exact 3 1 64 16 CHAIN_TOP_RIGHT_DOWN 5 40 (by decide) (by decide)⟩

/-- C8, the code at a failing input. On two rows of one 64x32 panel in
`FOUR_SCAN_32PX_HIGH` mode the in-range input `(0, 32)` is mapped to
`(127, 16)`: the row 16 lies outside the half-height buffer `[0, 16)`. -/
theorem four_scan_32_row_overflow :
    inRange twoRowFourScan 0 32
      ∧ twoRowFourScan.panelResY = 32
      ∧ (getCoords twoRowFourScan 0 32).coords = ⟨127, 16⟩
      ∧ ¬ ((getCoords twoRowFourScan 0 32).coords.y < 16) := by
  decide

/-- C9, as stated, fails: for the 2x2 grid of 64x32 panels the constructor
stores `dmaResX = 255`, while `panelWidth*chainRows*chainCols = 256`. -/
theorem chain_width_counterexample :
    grid2x2.panelResX * grid2x2.vmodule_rows * grid2x2.vmodule_cols = 256
      ∧ grid2x2.dmaResX = 255
      ∧ grid2x2.dmaResX ≠ grid2x2.panelResX * grid2x2.vmodule_rows * grid2x2.vmodule_cols := by
  decide

/-- C9, amended. For every geometry with positive dimensions whose chain width
`panelWidth*chainRows*chainCols` and canvas height `chainRows*panelHeight` fit
`int16_t`, the constructor sets `dmaResX = panelWidth*chainRows*chainCols - 1`,
the index of the last pixel along the chain, `virtualResX = chainCols*panelWidth`
and `virtualResY = chainRows*panelHeight`. -/
theorem constructor_derived_values (disp : List EngineCall) (R C W H : Int)
    (t : PANEL_CHAIN_TYPE) (hW : 0 < W) (hH : 0 < H) (hR : 0 < R) (hC : 0 < C)
    (hfit : W * R * C ≤ 32767) (hvy : R * H ≤ 32767) :
    (VirtualMatrixPanel.new disp R C W H t).dmaResX = W * R * C - 1
      ∧ (VirtualMatrixPanel.new disp R C W H t).virtualResX = C * W
      ∧ (VirtualMatrixPanel.new disp R C W H t).virtualResY = R * H := by
  have hWRC : 0 < W * R * C := mul_pos (mul_pos hW hR) hC
  have hRH : 0 < R * H := mul_pos hR hH
  have hCW : 0 < C * W := mul_pos hC hW
  have h1 : C * W ≤ W * R * C := by
    have : 0 ≤ (C * W) * (R - 1) := mul_nonneg (le_of_lt hCW) (by omega)
    nlinarith
  have h2 : W ≤ C * W := by
    have : 0 ≤ W * (C - 1) := mul_nonneg (le_of_lt hW) (by omega)
    nlinarith
  have h3 : C ≤ C * W := by
    have : 0 ≤ C * (W - 1) := mul_nonneg (le_of_lt hC) (by omega)
    nlinarith
  have h4 : R ≤ R * H := by
    have : 0 ≤ R * (H - 1) := mul_nonneg (le_of_lt hR) (by omega)
    nlinarith
  have eW : wrap16 W = W := wrap16_eq_self _ (by omega) (by omega)
  have eC : wrap16 C = C := wrap16_eq_self _ (by omega) (by omega)
  have eR : wrap16 R = R := wrap16_eq_self _ (by omega) (by omega)
  simp only [VirtualMatrixPanel.new, eW, eC, eR]
  exact ⟨wrap16_eq_self _ (by omega) (by omega), wrap16_eq_self _ (by omega) (by omega),
    wrap16_eq_self _ (by omega) (by omega)⟩

theorem constructor_derived_values_witness :
    ((0 : Int) < 64 ∧ (0 : Int) < 32 ∧ (0 : Int) < 2 ∧ (0 : Int) < 2
        ∧ (64 : Int) * 2 * 2 ≤ 32767 ∧ (2 : Int) * 32 ≤ 32767)
      ∧ (VirtualMatrixPanel.new [] 2 2 64 32 CHAIN_TOP_RIGHT_DOWN).dmaResX = 64 * 2 * 2 - 1
      ∧ (VirtualMatrixPanel.new [] 2 2 64 32 CHAIN_TOP_RIGHT_DOWN).virtualResX = 2 * 64
      ∧ (VirtualMatrixPanel.new [] 2 2 64 32 CHAIN_TOP_RIGHT_DOWN).virtualResY = 2 * 32 :=
  ⟨by decide,
    constructor_derived_values [] 2 2 64 32 CHAIN_TOP_RIGHT_DOWN (by decide) (by decide)
      (by decide) (by decide) (by decide) (by decide)⟩

theorem getCoords_display (p : VirtualMatrixPanel) (x y : Int) :
    (getCoords p x y).display = p.display := by
  unfold getCoords
  simp only []
  split <;> rfl

/-- C10, as stated, fails: drawing the out-of-range pixel `(-1, 0)` on the 2x2
grid does call the engine, once, with the Invalid coordinates `(-1, -1)`; the
recorded call sequence changes. -/
theorem out_of_range_draw_counterexample :
    ((-1 : Int) < 0 ∨ (-1 : Int) ≥ grid2x2.virtualResX ∨ (0 : Int) < 0
        ∨ (0 : Int) ≥ grid2x2.virtualResY)
      ∧ (drawPixel grid2x2 (-1) 0 7).display = [EngineCall.drawPixel (-1) (-1) 7]
      ∧ (drawPixel grid2x2 (-1) 0 7).display ≠ grid2x2.display
      ∧ (drawPixelRGB888 grid2x2 (-1) 0 1 2 3).display = [EngineCall.drawPixelRGB888 (-1) (-1) 1 2 3]
      ∧ (drawPixelRGB888 grid2x2 (-1) 0 1 2 3).display ≠ grid2x2.display := by
  decide

/-- C10, amended. For every panel state and every out-of-range `(x, y)`,
`drawPixel(x, y, color)` and `drawPixelRGB888(x, y, r, g, b)` each forward
exactly one pixel-write call to the output engine, carrying the Invalid
coordinates `(-1, -1)` and the unchanged colour; the facade itself does not
suppress the call. -/
theorem out_of_range_draw_forwards_invalid (p : VirtualMatrixPanel) (x y : Int)
    (color r g b : Nat)
    (h : x < 0 ∨ x ≥ p.virtualResX ∨ y < 0 ∨ y ≥ p.virtualResY) :
    (drawPixel p x y color).display = p.display ++ [EngineCall.drawPixel (-1) (-1) color]
      ∧ (drawPixelRGB888 p x y r g b).display
          = p.display ++ [EngineCall.drawPixelRGB888 (-1) (-1) r g b] := by
  have hd := getCoords_display p x y
  have hc := getCoords_out p x y h
  unfold drawPixel drawPixelRGB888
  constructor
  · show (getCoords p x y).display
        ++ [EngineCall.drawPixel (getCoords p x y).coords.x (getCoords p x y).coords.y color] = _
    rw [hd, hc]
  · show (getCoords p x y).display
        ++ [EngineCall.drawPixelRGB888 (getCoords p x y).coords.x (getCoords p x y).coords.y
            r g b] = _
    rw [hd, hc]

theorem out_of_range_draw_forwards_invalid_witness :
    ((200 : Int) < 0 ∨ (200 : Int) ≥ grid2x2.virtualResX ∨ (3 : Int) < 0
        ∨ (3 : Int) ≥ grid2x2.virtualResY)
      ∧ ((drawPixel grid2x2 200 3 9).display
            = grid2x2.display ++ [EngineCall.drawPixel (-1) (-1) 9]
        ∧ (drawPixelRGB888 grid2x2 200 3 1 2 3).display
            = grid2x2.display ++ [EngineCall.drawPixelRGB888 (-1) (-1) 1 2 3]) :=
  ⟨by decide, out_of_range_draw_forwards_invalid grid2x2 200 3 9 1 2 3 (by decide)⟩

/-! ## Regression values, the constructor scenario and the fill bypass -/

/-- C11, as stated, fails: on the 2x2 grid of 64x32 panels chained
`CHAIN_TOP_RIGHT_DOWN`, `getCoords(0, 0)` is not `(192, 0)`. -/
theorem row_parity_origin_counterexample :
    (getCoords grid2x2 0 0).coords ≠ ⟨192, 0⟩ := by
  decide

/-- C11, amended. For `CHAIN_TOP_RIGHT_DOWN` with `chainRows = 2`,
`chainCols = 2`, `panelWidth = 64`, `panelHeight = 32`, `NORMAL_TWO_SCAN`,
rotation off, `getCoords(0, 0) = (128, 0)`: row 0 is even, so the column is
`(2 - 1) * 128 + 0`. -/
theorem row_parity_origin :
    (getCoords (configured 2 2 64 32 CHAIN_TOP_RIGHT_DOWN false NORMAL_TWO_SCAN) 0 0).coords
      = ⟨128, 0⟩ := by
  decide

/-- C12, as stated, fails: on the same grid `getCoords(0, 32)` has column 127
and `getCoords(0, 0)` has column 128; the two columns are adjacent, their
distance is not greater than 1. -/
theorem row_parity_second_row_counterexample :
    (getCoords grid2x2 0 32).coords.x = 127
      ∧ (getCoords grid2x2 0 0).coords.x = 128
      ∧ ¬ (1 < Int.natAbs ((getCoords grid2x2 0 32).coords.x - (getCoords grid2x2 0 0).coords.x)) := by
  decide

/-- C12, amended. For `CHAIN_TOP_RIGHT_DOWN` with `chainRows = 2`,
`chainCols = 2`, `panelWidth = 64`, `panelHeight = 32`, `NORMAL_TWO_SCAN`,
rotation off, `getCoords(0, 32)` is computed by the upside-down branch
(`row = 1`: `x = dmaResX - 0 - 1 * virtualResX`,
`y = panelHeight - 1 - (32 mod 32)`), which gives `(127, 31)`; its column
differs from the column 128 of `getCoords(0, 0)` and is the column next to it. -/
theorem row_parity_second_row :
    Int.tmod (Int.tdiv 32 (configured 2 2 64 32 CHAIN_TOP_RIGHT_DOWN false NORMAL_TWO_SCAN).panelResY) 2
        = 1
      ∧ (getCoords (configured 2 2 64 32 CHAIN_TOP_RIGHT_DOWN false NORMAL_TWO_SCAN) 0 32).coords
          = ⟨(configured 2 2 64 32 CHAIN_TOP_RIGHT_DOWN false NORMAL_TWO_SCAN).dmaResX - 0
              - 1 * (configured 2 2 64 32 CHAIN_TOP_RIGHT_DOWN false NORMAL_TWO_SCAN).virtualResX,
             (configured 2 2 64 32 CHAIN_TOP_RIGHT_DOWN false NORMAL_TWO_SCAN).panelResY - 1
              - 32 % 32⟩
      ∧ (getCoords (configured 2 2 64 32 CHAIN_TOP_RIGHT_DOWN false NORMAL_TWO_SCAN) 0 32).coords
          = ⟨127, 31⟩
      ∧ (getCoords (configured 2 2 64 32 CHAIN_TOP_RIGHT_DOWN false NORMAL_TWO_SCAN) 0 32).coords.x
          ≠ (getCoords (configured 2 2 64 32 CHAIN_TOP_RIGHT_DOWN false NORMAL_TWO_SCAN) 0 0).coords.x
      ∧ Int.natAbs
          ((getCoords (configured 2 2 64 32 CHAIN_TOP_RIGHT_DOWN false NORMAL_TWO_SCAN) 0 32).coords.x
            - (getCoords (configured 2 2 64 32 CHAIN_TOP_RIGHT_DOWN false NORMAL_TWO_SCAN) 0 0).coords.x)
          = 1 := by
  decide

/-- C13. Constructing the panel with 64x32 panels, `CHAIN_TOP_RIGHT_DOWN`,
`chainRows = 2` and `chainCols = 2` yields `virtualResX = 128`,
`virtualResY = 64` and `dmaResX = 255 = panelWidth*chainRows*chainCols - 1`,
the inclusive maximum column. -/
theorem constructor_end_to_end (disp : List EngineCall) :
    (VirtualMatrixPanel.new disp 2 2 64 32 CHAIN_TOP_RIGHT_DOWN).virtualResX = 128
      ∧ (VirtualMatrixPanel.new disp 2 2 64 32 CHAIN_TOP_RIGHT_DOWN).virtualResY = 64
      ∧ (VirtualMatrixPanel.new disp 2 2 64 32 CHAIN_TOP_RIGHT_DOWN).dmaResX = 255
      ∧ (VirtualMatrixPanel.new disp 2 2 64 32 CHAIN_TOP_RIGHT_DOWN).dmaResX
          = (VirtualMatrixPanel.new disp 2 2 64 32 CHAIN_TOP_RIGHT_DOWN).panelResX
              * (VirtualMatrixPanel.new disp 2 2 64 32 CHAIN_TOP_RIGHT_DOWN).vmodule_rows
              * (VirtualMatrixPanel.new disp 2 2 64 32 CHAIN_TOP_RIGHT_DOWN).vmodule_cols - 1 := by
  refine ⟨?_, ?_, ?_, ?_⟩ <;> simp only [VirtualMatrixPanel.new] <;> decide

/-- C14. For every panel state, `fillScreen(color)` and
`fillScreenRGB888(r, g, b)` append exactly one whole-buffer fill call with the
unchanged colour arguments to the engine's call sequence and change nothing
else: the mapper configuration and the scratch member `coords` are as before
(the mapper is not run). The forwarded call is the same for every chain
topology, rotation flag and scan rate. -/
theorem fill_bypass (p : VirtualMatrixPanel) (color r g b : Nat) :
    (fillScreen p color = { p with display := p.display ++ [EngineCall.fillScreen color] }
        ∧ fillScreenRGB888 p r g b
            = { p with display := p.display ++ [EngineCall.fillScreenRGB888 r g b] })
      ∧ ((fillScreen p color).coords = p.coords
        ∧ (fillScreenRGB888 p r g b).coords = p.coords
        ∧ (fillScreen p color).panel_chain_type = p.panel_chain_type
        ∧ (fillScreenRGB888 p r g b).panel_chain_type = p.panel_chain_type
        ∧ (fillScreen p color).panel_scan_rate = p.panel_scan_rate
        ∧ (fillScreenRGB888 p r g b).panel_scan_rate = p.panel_scan_rate
        ∧ (fillScreen p color)._rotate = p._rotate
        ∧ (fillScreenRGB888 p r g b)._rotate = p._rotate)
      ∧ (∀ (R C W H : Int) (t1 t2 : PANEL_CHAIN_TYPE) (rot1 rot2 : Bool)
          (rate1 rate2 : PANEL_SCAN_RATE),
          (fillScreen (configured R C W H t1 rot1 rate1) color).display
              = [EngineCall.fillScreen color]
            ∧ (fillScreen (configured R C W H t1 rot1 rate1) color).display
              = (fillScreen (configured R C W H t2 rot2 rate2) color).display
            ∧ (fillScreenRGB888 (configured R C W H t1 rot1 rate1) r g b).display
              = [EngineCall.fillScreenRGB888 r g b]
            ∧ (fillScreenRGB888 (configured R C W H t1 rot1 rate1) r g b).display
              = (fillScreenRGB888 (configured R C W H t2 rot2 rate2) r g b).display) := by
  refine ⟨⟨rfl, rfl⟩, ⟨rfl, rfl, rfl, rfl, rfl, rfl, rfl, rfl⟩, ?_⟩
  intro R C W H t1 t2 rot1 rot2 rate1 rate2
  exact ⟨rfl, rfl, rfl, rfl⟩

/-- C16. For `chainRows = 1` with `CHAIN_TOP_RIGHT_DOWN`, `NORMAL_TWO_SCAN`
and rotation off, for every `chainCols`, `panelWidth`, `panelHeight` and every
in-range `(x, y)`, `getCoords(x, y) = (x, y)`. -/
theorem single_row_identity (C W H : Int) (x y : Int)
    (h : inRange (configured 1 C W H CHAIN_TOP_RIGHT_DOWN false NORMAL_TWO_SCAN) x y) :
    (getCoords (configured 1 C W H CHAIN_TOP_RIGHT_DOWN false NORMAL_TWO_SCAN) x y).coords
      = ⟨x, y⟩ := by
  have hx1 := (wrap16_bounds ((wrap16 C) * W)).2
  have hy1 := (wrap16_bounds H).2
  have h1 : wrap16 1 = 1 := by decide
  have hvy : (configured 1 C W H CHAIN_TOP_RIGHT_DOWN false NORMAL_TWO_SCAN).virtualResY
      = wrap16 H := by
    show wrap16 (wrap16 1 * H) = wrap16 H
    rw [h1, one_mul]
  have hvx : (configured 1 C W H CHAIN_TOP_RIGHT_DOWN false NORMAL_TWO_SCAN).virtualResX
      = wrap16 (wrap16 C * W) := rfl
  obtain ⟨hx0, hx, hy0, hy⟩ := h
  rw [hvy] at hy
  rw [hvx] at hx
  have hdiv : Int.tdiv y (wrap16 H) = 0 := by
    rw [Int.tdiv_eq_ediv hy0 (by omega)]
    exact Int.ediv_eq_zero_of_lt hy0 hy
  have hmod : Int.tmod y (wrap16 H) = y := by
    rw [Int.tmod_eq_emod hy0 (by omega)]
    exact Int.emod_eq_of_lt hy0 hy
  rw [getCoords_in _ x y ⟨hx0, by rw [hvx]; exact hx, hy0, by rw [hvy]; exact hy⟩,
    scanCoords_two_scan _ _ _ (Or.inl rfl)]
  show chainCoords (configured 1 C W H CHAIN_TOP_RIGHT_DOWN false NORMAL_TWO_SCAN) x y = _
  unfold chainCoords
  simp only [configured, setRotate, setPhysicalPanelScanRate, VirtualMatrixPanel.new, h1, hdiv,
    hmod]
  rw [if_neg (by decide)]
  congr 1
  · rw [show ((1 : Int) - (0 + 1)) * wrap16 (wrap16 C * W) + x = x by ring]
    exact wrap16_eq_self _ (by omega) (by omega)
  · exact wrap16_eq_self _ (by omega) (by omega)

theorem single_row_identity_witness :
    inRange (configured 1 3 64 32 CHAIN_TOP_RIGHT_DOWN false NORMAL_TWO_SCAN) 150 20
      ∧ (getCoords (configured 1 3 64 32 CHAIN_TOP_RIGHT_DOWN false NORMAL_TWO_SCAN) 150 20).coords
          = ⟨150, 20⟩ :=
  ⟨by decide, single_row_identity 3 64 32 150 20 (by decide)⟩

/-! ## Serpentine order of the panel blocks -/

theorem flip_div (C W x : Int) (hW : 0 < W) :
    (C * W - 1 - x) / W = C - 1 - x / W := by
  have hd := Int.ediv_add_emod x W
  have hm0 : 0 ≤ x % W := Int.emod_nonneg x (ne_of_gt hW)
  have hm : x % W < W := Int.emod_lt_of_pos x hW
  have he : C * W - 1 - x = (W - 1 - x % W) + (C - 1 - x / W) * W := by
    have : (C - 1 - x / W) * W = C * W - W - W * (x / W) := by ring
    omega
  rw [he, Int.add_mul_ediv_right _ _ (ne_of_gt hW),
    Int.ediv_eq_zero_of_lt (by omega) (by omega)]
  simp

theorem blockOf_eq (p : VirtualMatrixPanel) (g : Geometry p)
    (hs : p.panel_scan_rate = NORMAL_TWO_SCAN ∨ p.panel_scan_rate = NORMAL_ONE_SIXTEEN)
    (hr : p._rotate = false) (x y : Int) (h : inRange p x y) :
    blockOf p x y = gridBlock p (y / p.panelResY) (x / p.panelResX) := by
  have hW := g.resX_pos
  unfold blockOf gridBlock
  rw [getCoords_two_scan p g hs hr x y h]
  unfold blockCoords
  simp only [g.virtX]
  have hmul : ∀ a : Int, a * (p.vmodule_cols * p.panelResX) = a * p.vmodule_cols * p.panelResX :=
    fun a => by ring
  rw [hmul, add_comm, Int.add_mul_ediv_right _ _ (ne_of_gt hW), add_comm]
  congr 1
  split
  · exact flip_div _ _ _ hW
  · rfl

theorem grid_pixel (p : VirtualMatrixPanel) (g : Geometry p)
    (hvy : p.vmodule_rows * p.panelResY ≤ 32767) (r c : Int) (h : inGrid p r c) :
    inRange p (c * p.panelResX) (r * p.panelResY)
      ∧ (r * p.panelResY) / p.panelResY = r ∧ (c * p.panelResX) / p.panelResX = c := by
  obtain ⟨hr0, hr, hc0, hc⟩ := h
  have hW := g.resX_pos
  have hH := g.resY_pos
  have hvy2 : p.virtualResY = p.vmodule_rows * p.panelResY := by
    rw [g.virtY]
    exact wrap16_eq_self _ (by have := mul_pos g.rows_pos hH; omega) hvy
  have h1 : (c + 1) * p.panelResX ≤ p.vmodule_cols * p.panelResX :=
    mul_le_mul_of_nonneg_right (by omega) (le_of_lt hW)
  have h2 : (r + 1) * p.panelResY ≤ p.vmodule_rows * p.panelResY :=
    mul_le_mul_of_nonneg_right (by omega) (le_of_lt hH)
  have h3 : 0 ≤ c * p.panelResX := mul_nonneg hc0 (le_of_lt hW)
  have h4 : 0 ≤ r * p.panelResY := mul_nonneg hr0 (le_of_lt hH)
  have e1 : (c + 1) * p.panelResX = c * p.panelResX + p.panelResX := by ring
  have e2 : (r + 1) * p.panelResY = r * p.panelResY + p.panelResY := by ring
  refine ⟨⟨h3, ?_, h4, ?_⟩, Int.mul_ediv_cancel _ (ne_of_gt hH),
    Int.mul_ediv_cancel _ (ne_of_gt hW)⟩
  · rw [g.virtX]; omega
  · rw [hvy2]; omega

theorem panelBlock_eq (p : VirtualMatrixPanel) (g : Geometry p)
    (hs : p.panel_scan_rate = NORMAL_TWO_SCAN ∨ p.panel_scan_rate = NORMAL_ONE_SIXTEEN)
    (hr : p._rotate = false) (hvy : p.vmodule_rows * p.panelResY ≤ 32767) (r c : Int)
    (h : inGrid p r c) : panelBlock p r c = gridBlock p r c := by
  obtain ⟨hin, e1, e2⟩ := grid_pixel p g hvy r c h
  unfold panelBlock
  rw [blockOf_eq p g hs hr _ _ hin, e1, e2]

theorem isFlipped_pred (p : VirtualMatrixPanel) (e : Int) :
    isFlipped p (e - 1) = !isFlipped p e := by
  unfold isFlipped
  cases p.panel_chain_type <;> simp only [] <;>
    by_cases h : e % 2 = 1 <;>
    simp only [decide_eq_true_eq, Bool.decide_eq_true, decide_not,
      show ((e - 1) % 2 = 0) = (e % 2 = 1) from propext (by omega),
      show ((e - 1) % 2 = 1) = (e % 2 = 0) from propext (by omega),
      show (e % 2 = 0) = ¬ (e % 2 = 1) from propext (by omega), h] <;>
    simp

theorem gridBlock_range (p : VirtualMatrixPanel) (r c : Int) (h : inGrid p r c) :
    0 ≤ gridBlock p r c ∧ gridBlock p r c < p.vmodule_rows * p.vmodule_cols := by
  obtain ⟨hr0, hr, hc0, hc⟩ := h
  obtain ⟨he0, he⟩ := effRow_bounds p r hr0 hr
  unfold gridBlock
  exact block_bounds _ _ _ _ he0 he (by split <;> omega) (by split <;> omega)

theorem gridBlock_inj (p : VirtualMatrixPanel) (r1 c1 r2 c2 : Int) (h1 : inGrid p r1 c1)
    (h2 : inGrid p r2 c2) (h : gridBlock p r1 c1 = gridBlock p r2 c2) : r1 = r2 ∧ c1 = c2 := by
  unfold gridBlock at h
  obtain ⟨ha, ho⟩ := block_unique p.vmodule_cols _ _ _ _
    (by have := h1.2.2; split <;> omega) (by have := h1.2.2; split <;> omega)
    (by have := h2.2.2; split <;> omega) (by have := h2.2.2; split <;> omega) h
  have he : effRow p r1 = effRow p r2 := by omega
  have hr : r1 = r2 := by rw [← effRow_effRow p r1, he, effRow_effRow]
  rw [he] at ho
  refine ⟨hr, ?_⟩
  split at ho <;> omega

theorem gridBlock_surj (p : VirtualMatrixPanel) (hC : 0 < p.vmodule_cols) (b : Int)
    (h0 : 0 ≤ b) (h1 : b < p.vmodule_rows * p.vmodule_cols) :
    ∃ r c : Int, inGrid p r c ∧ gridBlock p r c = b := by
  have hk0 : 0 ≤ b / p.vmodule_cols := Int.ediv_nonneg h0 (le_of_lt hC)
  have hk : b / p.vmodule_cols < p.vmodule_rows := Int.ediv_lt_of_lt_mul hC h1
  have ho0 : 0 ≤ b % p.vmodule_cols := Int.emod_nonneg b (ne_of_gt hC)
  have ho : b % p.vmodule_cols < p.vmodule_cols := Int.emod_lt_of_pos b hC
  have hdm := Int.ediv_add_emod b p.vmodule_cols
  obtain ⟨hr0, hr⟩ := effRow_bounds p (p.vmodule_rows - 1 - b / p.vmodule_cols)
    (by omega) (by omega)
  generalize hf : isFlipped p (p.vmodule_rows - 1 - b / p.vmodule_cols) = f
  refine ⟨effRow p (p.vmodule_rows - 1 - b / p.vmodule_cols),
    if f then p.vmodule_cols - 1 - b % p.vmodule_cols else b % p.vmodule_cols,
    ⟨hr0, hr, by split <;> omega, by split <;> omega⟩, ?_⟩
  unfold gridBlock
  simp only [effRow_effRow, hf]
  have hx : (p.vmodule_rows - (p.vmodule_rows - 1 - b / p.vmodule_cols) - 1) * p.vmodule_cols
      = p.vmodule_cols * (b / p.vmodule_cols) := by ring
  rw [hx]
  cases f <;> simp only [Bool.false_eq_true, if_false, if_true] <;> linarith

theorem effRow_step (p : VirtualMatrixPanel) (r1 r2 : Int)
    (h : effRow p r2 = effRow p r1 - 1) : r1 - r2 = 1 ∨ r2 - r1 = 1 := by
  revert h
  unfold effRow
  cases p.panel_chain_type <;> simp only [] <;> omega

theorem gridBlock_succ (p : VirtualMatrixPanel) (r1 c1 r2 c2 : Int) (h1 : inGrid p r1 c1)
    (h2 : inGrid p r2 c2) (h : gridBlock p r2 c2 = gridBlock p r1 c1 + 1) :
    Int.natAbs (r1 - r2) + Int.natAbs (c1 - c2) = 1 := by
  obtain ⟨hr10, hr1, hc10, hc1⟩ := h1
  obtain ⟨hr20, hr2, hc20, hc2⟩ := h2
  unfold gridBlock at h
  generalize hf1 : isFlipped p (effRow p r1) = f1 at h
  generalize hf2 : isFlipped p (effRow p r2) = f2 at h
  have ho1 : 0 ≤ (if f1 = true then p.vmodule_cols - 1 - c1 else c1)
      ∧ (if f1 = true then p.vmodule_cols - 1 - c1 else c1) < p.vmodule_cols := by
    split <;> omega
  have ho2 : 0 ≤ (if f2 = true then p.vmodule_cols - 1 - c2 else c2)
      ∧ (if f2 = true then p.vmodule_cols - 1 - c2 else c2) < p.vmodule_cols := by
    split <;> omega
  by_cases hlast : (if f1 = true then p.vmodule_cols - 1 - c1 else c1) + 1 < p.vmodule_cols
  · obtain ⟨ha, ho⟩ := block_unique p.vmodule_cols (p.vmodule_rows - effRow p r2 - 1)
      (p.vmodule_rows - effRow p r1 - 1) _ _ ho2.1 ho2.2
      (by omega : 0 ≤ (if f1 = true then p.vmodule_cols - 1 - c1 else c1) + 1) hlast
      (by omega)
    have he : effRow p r1 = effRow p r2 := by omega
    have hr : r1 = r2 := by rw [← effRow_effRow p r1, he, effRow_effRow]
    have hff : f1 = f2 := by rw [← hf1, ← hf2, he]
    subst hff
    cases f1 <;> simp only [Bool.false_eq_true, if_false, if_true] at ho <;> omega
  · have hexp : (p.vmodule_rows - effRow p r1 - 1) * p.vmodule_cols
          + (if f1 = true then p.vmodule_cols - 1 - c1 else c1) + 1
        = (p.vmodule_rows - (effRow p r1 - 1) - 1) * p.vmodule_cols + 0 := by
      have : (p.vmodule_rows - (effRow p r1 - 1) - 1) * p.vmodule_cols
          = (p.vmodule_rows - effRow p r1 - 1) * p.vmodule_cols + p.vmodule_cols := by ring
      omega
    obtain ⟨ha, ho⟩ := block_unique p.vmodule_cols _ _ _ _ ho2.1 ho2.2 (le_refl 0)
      (by omega : (0 : Int) < p.vmodule_cols) (by rw [h, hexp])
    have he : effRow p r2 = effRow p r1 - 1 := by omega
    have hff : f2 = !f1 := by rw [← hf1, ← hf2, he, isFlipped_pred]
    have hrr : r1 - r2 = 1 ∨ r2 - r1 = 1 := effRow_step p r1 r2 he
    subst hff
    cases f1 <;> simp only [Bool.false_eq_true, if_false, if_true, Bool.not_false,
      Bool.not_true] at ho hlast <;> omega

/-- C15, as stated, fails: on `wideChain` (65 rows of eight 64x32 panels, chain
width 33280) the top-left pixel of the virtual panel `(0, 0)` is in range, but
its column is stored as `-32768` and its block `-32768 / 64 = -512` is not in
`[0, chainRows*chainCols)`. -/
theorem serpentine_order_counterexample :
    inGrid wideChain 0 0
      ∧ inRange wideChain (0 * wideChain.panelResX) (0 * wideChain.panelResY)
      ∧ panelBlock wideChain 0 0 = -512
      ∧ ¬ (0 ≤ panelBlock wideChain 0 0) := by
  decide

/-- C15, amended. In `NORMAL_TWO_SCAN` mode with rotation off, for each chain
topology and every geometry with positive dimensions whose chain width
`panelWidth*chainRows*chainCols` and canvas height `chainRows*panelHeight` fit
`int16_t`: (1) every pixel of a virtual panel `(r, c)` maps to the block
`blk(r, c) = coords.x / panelWidth`, (2) `blk` is a bijection from the
`chainRows × chainCols` grid onto `[0, chainRows*chainCols)`, (3) two panels
with `|blk(r, c) - blk(r', c')| = 1` satisfy `|r - r'| + |c - c'| = 1`. -/
theorem serpentine_order (R C W H : Int) (t : PANEL_CHAIN_TYPE) (p : VirtualMatrixPanel)
    (hp : p = configured R C W H t false NORMAL_TWO_SCAN)
    (hW : 0 < p.panelResX) (hH : 0 < p.panelResY) (hR : 0 < p.vmodule_rows)
    (hC : 0 < p.vmodule_cols)
    (hfit : p.panelResX * p.vmodule_rows * p.vmodule_cols ≤ 32767)
    (hvy : p.vmodule_rows * p.panelResY ≤ 32767) :
    SerpentineOrder p := by
  have g := configured_geometry R C W H t false NORMAL_TWO_SCAN p hp hW hH hR hC hfit
  have hs : p.panel_scan_rate = NORMAL_TWO_SCAN ∨ p.panel_scan_rate = NORMAL_ONE_SIXTEEN := by
    left; rw [hp]; rfl
  have hr : p._rotate = false := by rw [hp]; rfl
  refine ⟨?_, ⟨?_, ?_, ?_⟩, ?_⟩
  · intro x y h
    obtain ⟨hr0, hr1⟩ := row_bounds p g y h.2.2.1 h.2.2.2
    have hx : x < p.vmodule_cols * p.panelResX := by rw [← g.virtX]; exact h.2.1
    have hin : inGrid p (y / p.panelResY) (x / p.panelResX) :=
      ⟨hr0, hr1, Int.ediv_nonneg h.1 (le_of_lt hW), Int.ediv_lt_of_lt_mul hW hx⟩
    exact ⟨hin, by rw [blockOf_eq p g hs hr x y h, panelBlock_eq p g hs hr hvy _ _ hin]⟩
  · intro r c h
    rw [panelBlock_eq p g hs hr hvy r c h]
    exact gridBlock_range p r c h
  · intro r1 c1 r2 c2 h1 h2 he
    rw [panelBlock_eq p g hs hr hvy r1 c1 h1, panelBlock_eq p g hs hr hvy r2 c2 h2] at he
    exact gridBlock_inj p r1 c1 r2 c2 h1 h2 he
  · intro b h0 h1
    obtain ⟨r, c, hin, he⟩ := gridBlock_surj p hC b h0 h1
    exact ⟨r, c, hin, by rw [panelBlock_eq p g hs hr hvy r c hin, he]⟩
  · intro r1 c1 r2 c2 h1 h2 he
    rw [panelBlock_eq p g hs hr hvy r1 c1 h1, panelBlock_eq p g hs hr hvy r2 c2 h2] at he
    have hcase : gridBlock p r2 c2 = gridBlock p r1 c1 + 1
        ∨ gridBlock p r1 c1 = gridBlock p r2 c2 + 1 := by omega
    rcases hcase with hc | hc
    · exact gridBlock_succ p r1 c1 r2 c2 h1 h2 hc
    · have := gridBlock_succ p r2 c2 r1 c1 h2 h1 hc
      omega

theorem serpentine_order_witness :
    (configured 3 2 64 32 CHAIN_BOTTOM_RIGHT_UP false NORMAL_TWO_SCAN
          = configured 3 2 64 32 CHAIN_BOTTOM_RIGHT_UP false NORMAL_TWO_SCAN
        ∧ 0 < (configured 3 2 64 32 CHAIN_BOTTOM_RIGHT_UP false NORMAL_TWO_SCAN).panelResX
        ∧ 0 < (configured 3 2 64 32 CHAIN_BOTTOM_RIGHT_UP false NORMAL_TWO_SCAN).panelResY
        ∧ 0 < (configured 3 2 64 32 CHAIN_BOTTOM_RIGHT_UP false NORMAL_TWO_SCAN).vmodule_rows
        ∧ 0 < (configured 3 2 64 32 CHAIN_BOTTOM_RIGHT_UP false NORMAL_TWO_SCAN).vmodule_cols
        ∧ (configured 3 2 64 32 CHAIN_BOTTOM_RIGHT_UP false NORMAL_TWO_SCAN).panelResX
            * (configured 3 2 64 32 CHAIN_BOTTOM_RIGHT_UP false NORMAL_TWO_SCAN).vmodule_rows
            * (configured 3 2 64 32 CHAIN_BOTTOM_RIGHT_UP false NORMAL_TWO_SCAN).vmodule_cols
          ≤ 32767
        ∧ (configured 3 2 64 32 CHAIN_BOTTOM_RIGHT_UP false NORMAL_TWO_SCAN).vmodule_rows
            * (configured 3 2 64 32 CHAIN_BOTTOM_RIGHT_UP false NORMAL_TWO_SCAN).panelResY
          ≤ 32767)
      ∧ SerpentineOrder (configured 3 2 64 32 CHAIN_BOTTOM_RIGHT_UP false NORMAL_TWO_SCAN) :=
  ⟨⟨rfl, by decide⟩,
    serpentine_order 3 2 64 32 CHAIN_BOTTOM_RIGHT_UP _ rfl (by decide) (by decide) (by decide)
      (by decide) (by decide) (by decide)⟩

/-! ## Left and right chains -/

theorem wrap16_spec (a : Int) : ∃ k : Int, wrap16 a = a + 65536 * k :=
  ⟨-((a + 32768) / 65536), by unfold wrap16; omega⟩

theorem wrap16_congr (a b k : Int) (h : a = b + 65536 * k) : wrap16 a = wrap16 b := by
  rw [h, wrap16_add_mul]

theorem configured_dma_congr (R C W H : Int) (t : PANEL_CHAIN_TYPE) (rot : Bool)
    (rate : PANEL_SCAN_RATE) :
    ∃ k : Int, (configured R C W H t rot rate).dmaResX
      = (configured R C W H t rot rate).vmodule_rows
          * (configured R C W H t rot rate).virtualResX - 1 + 65536 * k := by
  show ∃ k : Int, wrap16 (wrap16 W * wrap16 R * wrap16 C - 1)
      = wrap16 R * wrap16 (wrap16 C * W) - 1 + 65536 * k
  obtain ⟨kd, hd⟩ := wrap16_spec (wrap16 W * wrap16 R * wrap16 C - 1)
  obtain ⟨kv, hv⟩ := wrap16_spec (wrap16 C * W)
  obtain ⟨kw, hw⟩ := wrap16_spec W
  refine ⟨kd - wrap16 R * kv + wrap16 R * wrap16 C * kw, ?_⟩
  rw [hd, hv]
  generalize wrap16 R = r at *
  generalize wrap16 C = c at *
  rw [hw]
  ring

theorem turnInRow_facts (p : VirtualMatrixPanel) (hH : 0 < p.panelResY) (x y : Int)
    (hy0 : 0 ≤ y) :
    0 ≤ (turnInRow p x y).2
      ∧ Int.tdiv (turnInRow p x y).2 p.panelResY = y / p.panelResY
      ∧ Int.tmod (turnInRow p x y).2 p.panelResY = p.panelResY - 1 - y % p.panelResY
      ∧ Int.tdiv y p.panelResY = y / p.panelResY
      ∧ Int.tmod y p.panelResY = y % p.panelResY := by
  have hm0 : 0 ≤ y % p.panelResY := Int.emod_nonneg y (ne_of_gt hH)
  have hm : y % p.panelResY < p.panelResY := Int.emod_lt_of_pos y hH
  have hrow0 : 0 ≤ y / p.panelResY := Int.ediv_nonneg hy0 (le_of_lt hH)
  have hrh : 0 ≤ y / p.panelResY * p.panelResY := mul_nonneg hrow0 (le_of_lt hH)
  have h0 : 0 ≤ (turnInRow p x y).2 := by
    show 0 ≤ y / p.panelResY * p.panelResY + (p.panelResY - 1 - y % p.panelResY)
    omega
  refine ⟨h0, ?_, ?_, Int.tdiv_eq_ediv hy0 (le_of_lt hH), Int.tmod_eq_emod hy0 (le_of_lt hH)⟩
  · rw [Int.tdiv_eq_ediv h0 (le_of_lt hH)]
    show (y / p.panelResY * p.panelResY + (p.panelResY - 1 - y % p.panelResY)) / p.panelResY = _
    rw [add_comm, Int.add_mul_ediv_right _ _ (ne_of_gt hH),
      Int.ediv_eq_zero_of_lt (by omega) (by omega)]
    simp
  · rw [Int.tmod_eq_emod h0 (le_of_lt hH)]
    show (y / p.panelResY * p.panelResY + (p.panelResY - 1 - y % p.panelResY)) % p.panelResY = _
    rw [add_comm, Int.add_mul_emod_self, Int.emod_eq_of_lt (by omega) (by omega)]

theorem chainCoords_turn (p : VirtualMatrixPanel) (hH : 0 < p.panelResY)
    (hdma : ∃ k : Int, p.dmaResX = p.vmodule_rows * p.virtualResX - 1 + 65536 * k)
    (x y : Int) (hy0 : 0 ≤ y) (hrow : y / p.panelResY < p.vmodule_rows) :
    (p.panel_chain_type = CHAIN_TOP_LEFT_DOWN →
        chainCoords p x y
          = chainCoords (withChain p CHAIN_TOP_RIGHT_DOWN) (turnInRow p x y).1 (turnInRow p x y).2)
      ∧ (p.panel_chain_type = CHAIN_BOTTOM_LEFT_UP →
        chainCoords p x y
          = chainCoords (withChain p CHAIN_BOTTOM_RIGHT_UP) (turnInRow p x y).1
              (turnInRow p x y).2) := by
  obtain ⟨k, hk⟩ := hdma
  obtain ⟨-, hd', hm', hd, hm⟩ := turnInRow_facts p hH x y hy0
  have hrow0 : 0 ≤ y / p.panelResY := Int.ediv_nonneg hy0 (le_of_lt hH)
  have hpar : Int.tmod (y / p.panelResY) 2 = (y / p.panelResY) % 2 :=
    Int.tmod_eq_emod hrow0 (by norm_num)
  have hpar2 : Int.tmod (p.vmodule_rows - y / p.panelResY - 1) 2
      = (p.vmodule_rows - y / p.panelResY - 1) % 2 :=
    Int.tmod_eq_emod (by omega) (by norm_num)
  have hx : (turnInRow p x y).1 = p.virtualResX - 1 - x := rfl
  constructor
  · intro ht
    unfold chainCoords
    simp only [withChain, ht, hd', hm', hd, hm, hpar, hx, hk]
    by_cases hc : (y / p.panelResY) % 2 = 0
    · rw [if_pos hc, if_neg (by omega)]
      congr 1
      exact wrap16_congr _ _ k (by ring)
    · rw [if_neg hc, if_pos (by omega)]
      congr 1
      · exact (wrap16_congr _ _ k (by ring)).symm
      · congr 1; ring
  · intro ht
    unfold chainCoords
    simp only [withChain, ht, hd', hm', hd, hm, hpar2, hx, hk]
    by_cases hc : (p.vmodule_rows - y / p.panelResY - 1) % 2 = 1
    · rw [if_pos hc, if_neg (by omega)]
      congr 1
      · exact (wrap16_congr _ _ k (by ring)).symm
      · congr 1; ring
    · rw [if_neg hc, if_pos (by omega)]
      congr 1
      exact wrap16_congr _ _ k (by ring)

theorem getCoords_turn (R C W H : Int) (t t2 : PANEL_CHAIN_TYPE) (x y : Int)
    (hH : 0 < (configured R C W H t false NORMAL_TWO_SCAN).panelResY)
    (hR : 0 < (configured R C W H t false NORMAL_TWO_SCAN).vmodule_rows)
    (hvy : (configured R C W H t false NORMAL_TWO_SCAN).vmodule_rows
      * (configured R C W H t false NORMAL_TWO_SCAN).panelResY ≤ 32767)
    (h : inRange (configured R C W H t false NORMAL_TWO_SCAN) x y)
    (ht : (t = CHAIN_TOP_LEFT_DOWN ∧ t2 = CHAIN_TOP_RIGHT_DOWN)
      ∨ (t = CHAIN_BOTTOM_LEFT_UP ∧ t2 = CHAIN_BOTTOM_RIGHT_UP)) :
    (getCoords (configured R C W H t false NORMAL_TWO_SCAN) x y).coords
      = (getCoords (configured R C W H t2 false NORMAL_TWO_SCAN)
          (turnInRow (configured R C W H t false NORMAL_TWO_SCAN) x y).1
          (turnInRow (configured R C W H t false NORMAL_TWO_SCAN) x y).2).coords := by
  obtain ⟨hx0, hx, hy0, hy⟩ := h
  have hvy2 : (configured R C W H t false NORMAL_TWO_SCAN).virtualResY
      = (configured R C W H t false NORMAL_TWO_SCAN).vmodule_rows
          * (configured R C W H t false NORMAL_TWO_SCAN).panelResY := by
    have hpos : 0 < wrap16 R * wrap16 H := mul_pos hR hH
    have hle : wrap16 R * wrap16 H ≤ 32767 := hvy
    show wrap16 (wrap16 R * H) = wrap16 R * wrap16 H
    rw [wrap16_mul_wrap16]
    exact wrap16_eq_self _ (by omega) hle
  have hrow : y / (configured R C W H t false NORMAL_TWO_SCAN).panelResY
      < (configured R C W H t false NORMAL_TWO_SCAN).vmodule_rows :=
    Int.ediv_lt_of_lt_mul hH (by rw [← hvy2]; exact hy)
  have hrow0 : 0 ≤ y / (configured R C W H t false NORMAL_TWO_SCAN).panelResY :=
    Int.ediv_nonneg hy0 (le_of_lt hH)
  have hm0 := Int.emod_nonneg y (ne_of_gt hH)
  have hm := Int.emod_lt_of_pos y hH
  have hle : (y / (configured R C W H t false NORMAL_TWO_SCAN).panelResY + 1)
        * (configured R C W H t false NORMAL_TWO_SCAN).panelResY
      ≤ (configured R C W H t false NORMAL_TWO_SCAN).vmodule_rows
        * (configured R C W H t false NORMAL_TWO_SCAN).panelResY :=
    mul_le_mul_of_nonneg_right (by omega) (le_of_lt hH)
  have hexp : (y / (configured R C W H t false NORMAL_TWO_SCAN).panelResY + 1)
        * (configured R C W H t false NORMAL_TWO_SCAN).panelResY
      = y / (configured R C W H t false NORMAL_TWO_SCAN).panelResY
          * (configured R C W H t false NORMAL_TWO_SCAN).panelResY
        + (configured R C W H t false NORMAL_TWO_SCAN).panelResY := by ring
  have hrh : 0 ≤ y / (configured R C W H t false NORMAL_TWO_SCAN).panelResY
      * (configured R C W H t false NORMAL_TWO_SCAN).panelResY :=
    mul_nonneg hrow0 (le_of_lt hH)
  have hin2 : inRange (configured R C W H t2 false NORMAL_TWO_SCAN)
      (turnInRow (configured R C W H t false NORMAL_TWO_SCAN) x y).1
      (turnInRow (configured R C W H t false NORMAL_TWO_SCAN) x y).2 := by
    show 0 ≤ (configured R C W H t false NORMAL_TWO_SCAN).virtualResX - 1 - x
      ∧ (configured R C W H t false NORMAL_TWO_SCAN).virtualResX - 1 - x
          < (configured R C W H t false NORMAL_TWO_SCAN).virtualResX
      ∧ 0 ≤ y / (configured R C W H t false NORMAL_TWO_SCAN).panelResY
            * (configured R C W H t false NORMAL_TWO_SCAN).panelResY
          + ((configured R C W H t false NORMAL_TWO_SCAN).panelResY - 1
            - y % (configured R C W H t false NORMAL_TWO_SCAN).panelResY)
      ∧ y / (configured R C W H t false NORMAL_TWO_SCAN).panelResY
            * (configured R C W H t false NORMAL_TWO_SCAN).panelResY
          + ((configured R C W H t false NORMAL_TWO_SCAN).panelResY - 1
            - y % (configured R C W H t false NORMAL_TWO_SCAN).panelResY)
          < (configured R C W H t false NORMAL_TWO_SCAN).virtualResY
    rw [hvy2]
    refine ⟨by omega, by omega, by omega, by omega⟩
  have hturn := chainCoords_turn (configured R C W H t false NORMAL_TWO_SCAN) hH
    (configured_dma_congr R C W H t false NORMAL_TWO_SCAN) x y hy0 hrow
  rw [getCoords_in _ x y ⟨hx0, hx, hy0, hy⟩, getCoords_in _ _ _ hin2,
    scanCoords_two_scan _ _ _ (Or.inl rfl), scanCoords_two_scan _ _ _ (Or.inl rfl)]
  rcases ht with ⟨h1, h2⟩ | ⟨h1, h2⟩
  · subst h1; subst h2
    exact hturn.1 rfl
  · subst h1; subst h2
    exact hturn.2 rfl

/-- C17, as stated, fails: on `wrappedCanvas` (656 rows of one 8x100 panel) the
canvas height 65600 is stored as `virtualResY = 64`; the input `(0, 0)` is in
range and `CHAIN_TOP_LEFT_DOWN` maps it to `(5247, 99)`, but its turned image
`(7, 99)` is out of range and `CHAIN_TOP_RIGHT_DOWN` returns the Invalid
sentinel there. -/
theorem left_chain_turned_counterexample :
    (wrappedCanvas CHAIN_TOP_LEFT_DOWN).virtualResY = 64
      ∧ inRange (wrappedCanvas CHAIN_TOP_LEFT_DOWN) 0 0
      ∧ turnInRow (wrappedCanvas CHAIN_TOP_LEFT_DOWN) 0 0 = (7, 99)
      ∧ (getCoords (wrappedCanvas CHAIN_TOP_LEFT_DOWN) 0 0).coords = ⟨5247, 99⟩
      ∧ (getCoords (wrappedCanvas CHAIN_TOP_RIGHT_DOWN) 7 99).coords = ⟨-1, -1⟩ := by
  decide

/-- C17, amended. In `NORMAL_TWO_SCAN` mode with rotation off, for every
geometry with positive `chainRows` and `panelHeight` whose canvas height
`chainRows*panelHeight` fits `int16_t` and every in-range `(x, y)` with
`r = y / panelHeight`, `getCoords` under `CHAIN_TOP_LEFT_DOWN` at `(x, y)`
equals `getCoords` under `CHAIN_TOP_RIGHT_DOWN` at
`(virtualResX - 1 - x, r*panelHeight + (panelHeight - 1 - (y mod panelHeight)))`,
and `getCoords` under `CHAIN_BOTTOM_LEFT_UP` at `(x, y)` equals `getCoords`
under `CHAIN_BOTTOM_RIGHT_UP` at the same turned point. -/
theorem left_chain_is_turned_right_chain (R C W H : Int) (x y : Int)
    (hH : 0 < (configured R C W H CHAIN_TOP_LEFT_DOWN false NORMAL_TWO_SCAN).panelResY)
    (hR : 0 < (configured R C W H CHAIN_TOP_LEFT_DOWN false NORMAL_TWO_SCAN).vmodule_rows)
    (hvy : (configured R C W H CHAIN_TOP_LEFT_DOWN false NORMAL_TWO_SCAN).vmodule_rows
      * (configured R C W H CHAIN_TOP_LEFT_DOWN false NORMAL_TWO_SCAN).panelResY ≤ 32767)
    (h : inRange (configured R C W H CHAIN_TOP_LEFT_DOWN false NORMAL_TWO_SCAN) x y) :
    (getCoords (configured R C W H CHAIN_TOP_LEFT_DOWN false NORMAL_TWO_SCAN) x y).coords
        = (getCoords (configured R C W H CHAIN_TOP_RIGHT_DOWN false NORMAL_TWO_SCAN)
            (turnInRow (configured R C W H CHAIN_TOP_LEFT_DOWN false NORMAL_TWO_SCAN) x y).1
            (turnInRow (configured R C W H CHAIN_TOP_LEFT_DOWN false NORMAL_TWO_SCAN) x y).2).coords
      ∧ (getCoords (configured R C W H CHAIN_BOTTOM_LEFT_UP false NORMAL_TWO_SCAN) x y).coords
        = (getCoords (configured R C W H CHAIN_BOTTOM_RIGHT_UP false NORMAL_TWO_SCAN)
            (turnInRow (configured R C W H CHAIN_BOTTOM_LEFT_UP false NORMAL_TWO_SCAN) x y).1
            (turnInRow (configured R C W H CHAIN_BOTTOM_LEFT_UP false NORMAL_TWO_SCAN) x y).2).coords :=
  ⟨getCoords_turn R C W H CHAIN_TOP_LEFT_DOWN CHAIN_TOP_RIGHT_DOWN x y hH hR hvy h
      (Or.inl ⟨rfl, rfl⟩),
    getCoords_turn R C W H CHAIN_BOTTOM_LEFT_UP CHAIN_BOTTOM_RIGHT_UP x y hH hR hvy h
      (Or.inr ⟨rfl, rfl⟩)⟩

theorem left_chain_is_turned_right_chain_witness :
    (0 < (configured 3 2 64 32 CHAIN_TOP_LEFT_DOWN false NORMAL_TWO_SCAN).panelResY
        ∧ 0 < (configured 3 2 64 32 CHAIN_TOP_LEFT_DOWN false NORMAL_TWO_SCAN).vmodule_rows
        ∧ (configured 3 2 64 32 CHAIN_TOP_LEFT_DOWN false NORMAL_TWO_SCAN).vmodule_rows
            * (configured 3 2 64 32 CHAIN_TOP_LEFT_DOWN false NORMAL_TWO_SCAN).panelResY ≤ 32767
        ∧ inRange (configured 3 2 64 32 CHAIN_TOP_LEFT_DOWN false NORMAL_TWO_SCAN) 5 40)
      ∧ ((getCoords (configured 3 2 64 32 CHAIN_TOP_LEFT_DOWN false NORMAL_TWO_SCAN) 5 40).coords
          = (getCoords (configured 3 2 64 32 CHAIN_TOP_RIGHT_DOWN false NORMAL_TWO_SCAN)
              (turnInRow (configured 3 2 64 32 CHAIN_TOP_LEFT_DOWN false NORMAL_TWO_SCAN) 5 40).1
              (turnInRow (configured 3 2 64 32 CHAIN_TOP_LEFT_DOWN false NORMAL_TWO_SCAN) 5 40).2).coords
        ∧ (getCoords (configured 3 2 64 32 CHAIN_BOTTOM_LEFT_UP false NORMAL_TWO_SCAN) 5 40).coords
          = (getCoords (configured 3 2 64 32 CHAIN_BOTTOM_RIGHT_UP false NORMAL_TWO_SCAN)
              (turnInRow (configured 3 2 64 32 CHAIN_BOTTOM_LEFT_UP false NORMAL_TWO_SCAN) 5 40).1
              (turnInRow (configured 3 2 64 32 CHAIN_BOTTOM_LEFT_UP false NORMAL_TWO_SCAN) 5 40).2).coords) :=
  ⟨by decide,
    left_chain_is_turned_right_chain 3 2 64 32 5 40 (by decide) (by decide) (by decide)
      (by decide)⟩

/-! ## Injectivity of the four-scan folds -/

theorem nat_land_eight (n : Nat) : n &&& 8 = 0 ↔ n % 16 < 8 := by
  have h1 : n &&& 8 = (n % 16) &&& 8 := by
    have h := Nat.and_pow_two_sub_one_eq_mod n 4
    norm_num at h
    rw [← h, Nat.and_assoc]
    rfl
  rw [h1]
  have hm : n % 16 < 16 := Nat.mod_lt _ (by norm_num)
  generalize n % 16 = m at hm
  interval_cases m <;> decide

theorem land_eight (y : Int) (hy : 0 ≤ y) : Int.land y 8 = 0 ↔ y % 16 < 8 := by
  obtain ⟨n, rfl⟩ := Int.eq_ofNat_of_zero_le hy
  show ((n &&& 8 : Nat) : Int) = 0 ↔ _
  have h := nat_land_eight n
  omega

theorem nat_land_fff0 (n : Nat) (hn : n < 65536) : (n &&& 0xFFF0) >>> 4 = n / 16 := by
  have hd : n / 16 = n >>> 4 := by rw [Nat.shiftRight_eq_div_pow]
  rw [hd]
  apply Nat.eq_of_testBit_eq
  intro i
  rw [Nat.testBit_shiftRight, Nat.testBit_and, Nat.testBit_shiftRight]
  by_cases hi : i < 12
  · have : Nat.testBit 65520 (4 + i) = true := by
      interval_cases i <;> decide
    rw [this, Bool.and_true]
  · have : n.testBit (4 + i) = false := by
      apply Nat.testBit_lt_two_pow
      calc n < 65536 := hn
        _ = 2 ^ 16 := by norm_num
        _ ≤ 2 ^ (4 + i) := Nat.pow_le_pow_right (by norm_num) (by omega)
    rw [this, Bool.false_and]

theorem land_fff0 (px : Int) (h0 : 0 ≤ px) (h1 : px ≤ 32767) :
    Int.shiftRight (Int.land px 0xFFF0) 4 = px / 16 := by
  obtain ⟨n, rfl⟩ := Int.eq_ofNat_of_zero_le h0
  show (((n &&& 0xFFF0) >>> 4 : Nat) : Int) = _
  rw [nat_land_fff0 n (by omega)]
  norm_cast

theorem coords_ext (a b : VirtualCoords) (hx : a.x = b.x) (hy : a.y = b.y) : a = b := by
  cases a; cases b
  simp only [VirtualCoords.mk.injEq]
  exact ⟨hx, hy⟩

theorem foldY_inj (y1 y2 : Int) (h1 : 0 ≤ y1) (h2 : 0 ≤ y2)
    (hb : y1 % 16 < 8 ↔ y2 % 16 < 8) (h : foldY y1 = foldY y2) : y1 = y2 := by
  unfold foldY at h
  rw [land_seven y1 h1, land_seven y2 h2, shiftRight_four, shiftRight_four] at h
  omega

theorem fold32X_block (w p y : Int) (hw : 0 < w) (hp : 0 ≤ p) :
    fold32X w p y = (2 * (p / w) + (if Int.land y 8 = 0 then 1 else 0)) * w + p % w := by
  have hd : Int.tdiv p w = p / w := Int.tdiv_eq_ediv hp (le_of_lt hw)
  have e := Int.ediv_add_emod p w
  unfold fold32X
  rw [hd]
  split
  · have : (2 * (p / w) + 1) * w = w * (p / w) + (p / w + 1) * w := by ring
    omega
  · have : (2 * (p / w) + 0) * w = w * (p / w) + p / w * w := by ring
    omega

theorem fold32X_inj (w p1 p2 y1 y2 : Int) (hw : 0 < w) (hp1 : 0 ≤ p1) (hp2 : 0 ≤ p2)
    (hy1 : 0 ≤ y1) (hy2 : 0 ≤ y2) (h : fold32X w p1 y1 = fold32X w p2 y2) :
    p1 = p2 ∧ (y1 % 16 < 8 ↔ y2 % 16 < 8) := by
  have e1 := Int.ediv_add_emod p1 w
  have e2 := Int.ediv_add_emod p2 w
  have l1 := land_eight y1 hy1
  have l2 := land_eight y2 hy2
  rw [fold32X_block w p1 y1 hw hp1, fold32X_block w p2 y2 hw hp2] at h
  obtain ⟨ha, ho⟩ := block_unique w _ _ _ _ (Int.emod_nonneg p1 (ne_of_gt hw))
    (Int.emod_lt_of_pos p1 hw) (Int.emod_nonneg p2 (ne_of_gt hw)) (Int.emod_lt_of_pos p2 hw) h
  have hq : p1 / w = p2 / w := by
    split at ha <;> split at ha <;> omega
  constructor
  · rw [← e1, ← e2, hq, ho]
  · rw [hq] at ha
    split at ha <;> split at ha <;> omega

theorem wrap16_inj (a b : Int) (ha0 : 0 ≤ a) (ha : a < 65536) (hb0 : 0 ≤ b) (hb : b < 65536)
    (h : wrap16 a = wrap16 b) : a = b := by
  unfold wrap16 at h; omega

/-- C18. With rotation off, for every chain topology and every geometry with
positive dimensions and no `int16_t` overflow of the chain width
`panelWidth*chainRows*chainCols`, `getCoords` under `FOUR_SCAN_32PX_HIGH` is
injective on the in-range inputs `[0, virtualResX) × [0, virtualResY)`. -/
theorem four_scan_32_injective (R C W H : Int) (t : PANEL_CHAIN_TYPE) (p : VirtualMatrixPanel)
    (hp : p = configured R C W H t false FOUR_SCAN_32PX_HIGH)
    (hW : 0 < p.panelResX) (hH : 0 < p.panelResY) (hR : 0 < p.vmodule_rows)
    (hC : 0 < p.vmodule_cols)
    (hfit : p.panelResX * p.vmodule_rows * p.vmodule_cols ≤ 32767) :
    InjectiveOnCanvas p := by
  subst hp
  have hfit1 : (configured R C W H t false NORMAL_TWO_SCAN).panelResX
      * (configured R C W H t false NORMAL_TWO_SCAN).vmodule_rows
      * (configured R C W H t false NORMAL_TWO_SCAN).vmodule_cols ≤ 32767 := hfit
  have g := configured_geometry R C W H t false NORMAL_TWO_SCAN _ rfl hW hH hR hC hfit1
  have hs : (configured R C W H t false NORMAL_TWO_SCAN).panel_scan_rate = NORMAL_TWO_SCAN
      ∨ (configured R C W H t false NORMAL_TWO_SCAN).panel_scan_rate = NORMAL_ONE_SIXTEEN :=
    Or.inl rfl
  have hr : (configured R C W H t false NORMAL_TWO_SCAN)._rotate = false := rfl
  have hcoords : ∀ x y : Int, inRange (configured R C W H t false NORMAL_TWO_SCAN) x y →
      (getCoords (configured R C W H t false FOUR_SCAN_32PX_HIGH) x y).coords
          = { x := wrap16 (fold32X (configured R C W H t false NORMAL_TWO_SCAN).panelResX
                    (blockCoords (configured R C W H t false NORMAL_TWO_SCAN) x y).x y)
              y := foldY y }
        ∧ 0 ≤ (blockCoords (configured R C W H t false NORMAL_TWO_SCAN) x y).x
        ∧ 0 ≤ fold32X (configured R C W H t false NORMAL_TWO_SCAN).panelResX
                (blockCoords (configured R C W H t false NORMAL_TWO_SCAN) x y).x y
        ∧ fold32X (configured R C W H t false NORMAL_TWO_SCAN).panelResX
                (blockCoords (configured R C W H t false NORMAL_TWO_SCAN) x y).x y < 65536 := by
    intro x y h
    have hb := four_scan_32_fits R C W H t _ rfl hW hH hR hC hfit1 x y h
    have hr2 := blockCoords_range _ g x y h.1 h.2.1 h.2.2.1 h.2.2.2
    rw [getCoords_two_scan _ g hs hr x y h] at hb
    rw [getCoords_four_scan_32 R C W H t x y h, getCoords_two_scan _ g hs hr x y h]
    exact ⟨rfl, hr2.1, hb.1, by omega⟩
  intro x1 y1 x2 y2 h1 h2 he
  obtain ⟨c1, p1, f1, f1'⟩ := hcoords x1 y1 h1
  obtain ⟨c2, p2, f2, f2'⟩ := hcoords x2 y2 h2
  rw [c1, c2] at he
  simp only [VirtualCoords.mk.injEq] at he
  obtain ⟨hx, hy⟩ := he
  have hx2 := wrap16_inj _ _ f1 f1' f2 f2' hx
  obtain ⟨hpx, hbit⟩ := fold32X_inj _ _ _ y1 y2 hW p1 p2 h1.2.2.1 h2.2.2.1 hx2
  have hyy : y1 = y2 := foldY_inj y1 y2 h1.2.2.1 h2.2.2.1 hbit hy
  subst hyy
  have hblock : blockCoords (configured R C W H t false NORMAL_TWO_SCAN) x1 y1
      = blockCoords (configured R C W H t false NORMAL_TWO_SCAN) x2 y1 :=
    coords_ext _ _ hpx rfl
  exact blockCoords_inj _ x1 y1 x2 y1 ⟨h1.1, h1.2.1⟩ ⟨h2.1, h2.2.1⟩ hblock

theorem four_scan_32_injective_witness :
    (configured 2 2 64 32 CHAIN_TOP_LEFT_DOWN false FOUR_SCAN_32PX_HIGH
          = configured 2 2 64 32 CHAIN_TOP_LEFT_DOWN false FOUR_SCAN_32PX_HIGH
        ∧ 0 < (configured 2 2 64 32 CHAIN_TOP_LEFT_DOWN false FOUR_SCAN_32PX_HIGH).panelResX
        ∧ 0 < (configured 2 2 64 32 CHAIN_TOP_LEFT_DOWN false FOUR_SCAN_32PX_HIGH).panelResY
        ∧ 0 < (configured 2 2 64 32 CHAIN_TOP_LEFT_DOWN false FOUR_SCAN_32PX_HIGH).vmodule_rows
        ∧ 0 < (configured 2 2 64 32 CHAIN_TOP_LEFT_DOWN false FOUR_SCAN_32PX_HIGH).vmodule_cols
        ∧ (configured 2 2 64 32 CHAIN_TOP_LEFT_DOWN false FOUR_SCAN_32PX_HIGH).panelResX
            * (configured 2 2 64 32 CHAIN_TOP_LEFT_DOWN false FOUR_SCAN_32PX_HIGH).vmodule_rows
            * (configured 2 2 64 32 CHAIN_TOP_LEFT_DOWN false FOUR_SCAN_32PX_HIGH).vmodule_cols
          ≤ 32767)
      ∧ InjectiveOnCanvas (configured 2 2 64 32 CHAIN_TOP_LEFT_DOWN false FOUR_SCAN_32PX_HIGH) :=
  ⟨⟨rfl, by decide⟩,
    four_scan_32_injective 2 2 64 32 CHAIN_TOP_LEFT_DOWN _ rfl (by decide) (by decide)
      (by decide) (by decide) (by decide)⟩

theorem shiftRight_two (w : Int) : Int.shiftRight w 2 = w / 4 := by
  have h := Int.shiftRight_eq_div_pow w 2
  simpa using h

theorem fold16_block (w px y : Int) (h0 : 0 ≤ px) (h1 : px ≤ 32767) (hy : y < 32) :
    (fold16 w px y).x
      = (16 + w / 4) * (px / 16) + (px % 16 + (if Int.land y 8 = 0 then w / 4 else 0)) := by
  unfold fold16 fold16Offset
  rw [if_pos hy, land_fff0 px h0 h1, shiftRight_two]
  show px + (if Int.land y 8 = 0 then w / 4 * (px / 16 + 1) else w / 4 * (px / 16)) = _
  have e1 : w / 4 * (px / 16 + 1) = w / 4 * (px / 16) + w / 4 := by ring
  have e2 : (16 + w / 4) * (px / 16) = 16 * (px / 16) + w / 4 * (px / 16) := by ring
  split <;> omega

theorem fold16_inj (w p1 p2 y1 y2 : Int) (hw : 64 ≤ w) (hp1 : 0 ≤ p1 ∧ p1 ≤ 32767)
    (hp2 : 0 ≤ p2 ∧ p2 ≤ 32767) (hy1 : 0 ≤ y1 ∧ y1 < 32) (hy2 : 0 ≤ y2 ∧ y2 < 32)
    (h : (fold16 w p1 y1).x = (fold16 w p2 y2).x) :
    p1 = p2 ∧ (y1 % 16 < 8 ↔ y2 % 16 < 8) := by
  have l1 := land_eight y1 hy1.1
  have l2 := land_eight y2 hy2.1
  rw [fold16_block w p1 y1 hp1.1 hp1.2 hy1.2, fold16_block w p2 y2 hp2.1 hp2.2 hy2.2,
    mul_comm (16 + w / 4), mul_comm (16 + w / 4)] at h
  obtain ⟨hq, ho⟩ := block_unique (16 + w / 4) _ _ _ _
    (by split <;> omega) (by split <;> omega) (by split <;> omega) (by split <;> omega) h
  constructor
  · omega
  · split at ho <;> split at ho <;> omega

theorem fold16_lt_of_width_64 (px y : Int) (h0 : 0 ≤ px) (h1 : px ≤ 32767) (hy : y < 32) :
    (fold16 64 px y).x < 65536 := by
  rw [fold16_block 64 px y h0 h1 hy]
  split <;> omega

/-- C19, as stated, fails: on one 32x16 panel in `FOUR_SCAN_16PX_HIGH` mode the
two in-range inputs `(0, 0)` and `(8, 8)` are both mapped to `(8, 0)`. -/
theorem four_scan_16_injective_counterexample :
    inRange narrowFourScan16 0 0 ∧ inRange narrowFourScan16 8 8
      ∧ (getCoords narrowFourScan16 0 0).coords = ⟨8, 0⟩
      ∧ (getCoords narrowFourScan16 8 8).coords = ⟨8, 0⟩
      ∧ ¬ InjectiveOnCanvas narrowFourScan16 := by
  refine ⟨by decide, by decide, by decide, by decide, ?_⟩
  intro h
  have := h 0 0 8 8 (by decide) (by decide) (by decide)
  omega

theorem four_scan_16_inj_aux (C W : Int) (t : PANEL_CHAIN_TYPE) (p : VirtualMatrixPanel)
    (hp : p = configured 1 C W 16 t false FOUR_SCAN_16PX_HIGH)
    (hW : 64 ≤ p.panelResX) (hC : 0 < p.vmodule_cols)
    (hfit : p.panelResX * p.vmodule_rows * p.vmodule_cols ≤ 32767)
    (x1 y1 x2 y2 : Int) (h1 : inRange p x1 y1) (h2 : inRange p x2 y2)
    (hf1 : (fold16 p.panelResX
        (getCoords (configured 1 C W 16 t false NORMAL_TWO_SCAN) x1 y1).coords.x y1).x < 65536)
    (hf2 : (fold16 p.panelResX
        (getCoords (configured 1 C W 16 t false NORMAL_TWO_SCAN) x2 y2).coords.x y2).x < 65536)
    (he : (getCoords p x1 y1).coords = (getCoords p x2 y2).coords) :
    x1 = x2 ∧ y1 = y2 := by
  subst hp
  have hW' : 64 ≤ (configured 1 C W 16 t false NORMAL_TWO_SCAN).panelResX := hW
  have hfit1 : (configured 1 C W 16 t false NORMAL_TWO_SCAN).panelResX
      * (configured 1 C W 16 t false NORMAL_TWO_SCAN).vmodule_rows
      * (configured 1 C W 16 t false NORMAL_TWO_SCAN).vmodule_cols ≤ 32767 := hfit
  have hH : 0 < (configured 1 C W 16 t false NORMAL_TWO_SCAN).panelResY := by
    show 0 < wrap16 16
    decide
  have hR : 0 < (configured 1 C W 16 t false NORMAL_TWO_SCAN).vmodule_rows := by
    show 0 < wrap16 1
    decide
  have g := configured_geometry 1 C W 16 t false NORMAL_TWO_SCAN _ rfl (by omega) hH hR hC hfit1
  have hs : (configured 1 C W 16 t false NORMAL_TWO_SCAN).panel_scan_rate = NORMAL_TWO_SCAN
      ∨ (configured 1 C W 16 t false NORMAL_TWO_SCAN).panel_scan_rate = NORMAL_ONE_SIXTEEN :=
    Or.inl rfl
  have hr : (configured 1 C W 16 t false NORMAL_TWO_SCAN)._rotate = false := rfl
  have hvy : (configured 1 C W 16 t false NORMAL_TWO_SCAN).virtualResY = 16 := by
    show wrap16 (wrap16 1 * 16) = 16
    decide
  have hcoords : ∀ x y : Int, inRange (configured 1 C W 16 t false NORMAL_TWO_SCAN) x y →
      ((getCoords (configured 1 C W 16 t false NORMAL_TWO_SCAN) x y).coords.x
          = (blockCoords (configured 1 C W 16 t false NORMAL_TWO_SCAN) x y).x
        ∧ (getCoords (configured 1 C W 16 t false FOUR_SCAN_16PX_HIGH) x y).coords
          = { x := wrap16 (fold16 (configured 1 C W 16 t false NORMAL_TWO_SCAN).panelResX
                    (blockCoords (configured 1 C W 16 t false NORMAL_TWO_SCAN) x y).x y).x
              y := foldY y })
        ∧ (0 ≤ (blockCoords (configured 1 C W 16 t false NORMAL_TWO_SCAN) x y).x
          ∧ (blockCoords (configured 1 C W 16 t false NORMAL_TWO_SCAN) x y).x ≤ 32767)
        ∧ (0 ≤ y ∧ y < 32)
        ∧ 0 ≤ (fold16 (configured 1 C W 16 t false NORMAL_TWO_SCAN).panelResX
                (blockCoords (configured 1 C W 16 t false NORMAL_TWO_SCAN) x y).x y).x := by
    intro x y h
    have hr2 := blockCoords_range _ g x y h.1 h.2.1 h.2.2.1 h.2.2.2
    have hle := g.chain_le
    have hy : y < 32 := by have := h.2.2.2; omega
    have hq : 0 ≤ (16 + (configured 1 C W 16 t false NORMAL_TWO_SCAN).panelResX / 4)
        * ((blockCoords (configured 1 C W 16 t false NORMAL_TWO_SCAN) x y).x / 16) :=
      mul_nonneg (by omega) (by omega)
    refine ⟨⟨by rw [getCoords_two_scan _ g hs hr x y h], ?_⟩, ⟨hr2.1, by omega⟩,
      ⟨h.2.2.1, hy⟩, ?_⟩
    · rw [getCoords_four_scan_16 1 C W 16 t x y h, getCoords_two_scan _ g hs hr x y h]
      congr 1
      unfold fold16
      rw [if_pos hy]
    · rw [fold16_block _ _ y hr2.1 (by omega) hy]
      split <;> omega
  obtain ⟨⟨e1, c1⟩, p1, q1, f1⟩ := hcoords x1 y1 h1
  obtain ⟨⟨e2, c2⟩, p2, q2, f2⟩ := hcoords x2 y2 h2
  rw [e1] at hf1
  rw [e2] at hf2
  rw [c1, c2] at he
  simp only [VirtualCoords.mk.injEq] at he
  obtain ⟨hx, hy⟩ := he
  have hx2 := wrap16_inj _ _ f1 hf1 f2 hf2 hx
  obtain ⟨hpx, hbit⟩ := fold16_inj _ _ _ y1 y2 hW' p1 p2 q1 q2 hx2
  have hyy : y1 = y2 := foldY_inj y1 y2 q1.1 q2.1 hbit hy
  subst hyy
  have hblock : blockCoords (configured 1 C W 16 t false NORMAL_TWO_SCAN) x1 y1
      = blockCoords (configured 1 C W 16 t false NORMAL_TWO_SCAN) x2 y1 :=
    coords_ext _ _ hpx rfl
  exact blockCoords_inj _ x1 y1 x2 y1 ⟨h1.1, h1.2.1⟩ ⟨h2.1, h2.2.1⟩ hblock

/-- C19, amended. With rotation off, for a single-row chain (`chainRows = 1`)
of 16-pixel-high panels, every `chainCols ≥ 1`, every `panelWidth ≥ 64` (so
every multiple of 16 from 64 on) whose chain width fits `int16_t`, and every
chain topology, `getCoords` under `FOUR_SCAN_16PX_HIGH` maps no two in-range
inputs whose folded columns are below 65536 to the same buffer cell. -/
theorem four_scan_16_injective (C W : Int) (t : PANEL_CHAIN_TYPE) (p : VirtualMatrixPanel)
    (hp : p = configured 1 C W 16 t false FOUR_SCAN_16PX_HIGH)
    (hW : 64 ≤ p.panelResX) (hC : 0 < p.vmodule_cols)
    (hfit : p.panelResX * p.vmodule_rows * p.vmodule_cols ≤ 32767) :
    InjectiveBelowWrap p := by
  intro x1 y1 x2 y2 h1 h2 hf1 hf2 he
  refine four_scan_16_inj_aux C W t p hp hW hC hfit x1 y1 x2 y2 h1 h2 ?_ ?_ he
  · subst hp; exact hf1
  · subst hp; exact hf2

theorem four_scan_16_injective_witness :
    (configured 1 2 64 16 CHAIN_TOP_LEFT_DOWN false FOUR_SCAN_16PX_HIGH
          = configured 1 2 64 16 CHAIN_TOP_LEFT_DOWN false FOUR_SCAN_16PX_HIGH
        ∧ 64 ≤ (configured 1 2 64 16 CHAIN_TOP_LEFT_DOWN false FOUR_SCAN_16PX_HIGH).panelResX
        ∧ 0 < (configured 1 2 64 16 CHAIN_TOP_LEFT_DOWN false FOUR_SCAN_16PX_HIGH).vmodule_cols
        ∧ (configured 1 2 64 16 CHAIN_TOP_LEFT_DOWN false FOUR_SCAN_16PX_HIGH).panelResX
            * (configured 1 2 64 16 CHAIN_TOP_LEFT_DOWN false FOUR_SCAN_16PX_HIGH).vmodule_rows
            * (configured 1 2 64 16 CHAIN_TOP_LEFT_DOWN false FOUR_SCAN_16PX_HIGH).vmodule_cols
          ≤ 32767)
      ∧ InjectiveBelowWrap (configured 1 2 64 16 CHAIN_TOP_LEFT_DOWN false FOUR_SCAN_16PX_HIGH) :=
  ⟨⟨rfl, by decide⟩,
    four_scan_16_injective 2 64 CHAIN_TOP_LEFT_DOWN _ rfl (by decide) (by decide) (by decide)⟩

end VMP
